import Mathlib

/-!
# Verification of the adobe-hackathon-challenge-1b core pipeline

Shallow embedding of the repository's core logic:

* `src/src/pdf_processor.py` — extraction coordinator with fallback chain
  and the four extraction backends (PyMuPDF, PyPDF2, pdfplumber, Basic);
* `src/src/persona_analyzer.py` — keyword-scoring persona detection and
  persona-specific relevance analysis;
* `src/src/output_formatter.py` — report assembly (single document and
  collection), title/text enhancement, collection persona detection.

Python strings are modelled as Lean `String`s (lists of characters); all
string primitives used by the code (`strip`, `lower`, `split`, `count`,
substring test, `title`, `replace`, slicing) are re-implemented below with
structural recursion so that every definition evaluates by `decide`/`rfl`.
Python dicts with fixed key sets are modelled as structures; a possibly
missing key is an `Option` field.  Python floats are modelled as rationals.
-/

set_option linter.unusedVariables false

/-! ## Python string primitives -/

/-- Python whitespace characters (`str.strip`, `str.split`, `\s`). -/
def isWs (c : Char) : Bool :=
  c = ' ' || c = '\t' || c = '\n' || c = '\r' || c = '\x0b' || c = '\x0c'

/-- Python word character for `\w` / `\b` (ASCII model): alphanumeric or underscore. -/
def isWordChar (c : Char) : Bool := c.isAlphanum || c = '_'

/-- `s.strip()` on a character list. -/
def pyStripList (l : List Char) : List Char :=
  ((l.dropWhile isWs).reverse.dropWhile isWs).reverse

/-- Python `s.strip()`. -/
def pyStrip (s : String) : String := ⟨pyStripList s.data⟩

/-- Python `s.lower()` (ASCII model). -/
def pyLower (s : String) : String := ⟨s.data.map Char.toLower⟩

/-- Python `len(s)`. -/
def pyLen (s : String) : Nat := s.data.length

/-- Python `s[:n]`. -/
def pyTake (s : String) (n : Nat) : String := ⟨s.data.take n⟩

/-- Python `s[n:]`. -/
def pyDrop (s : String) (n : Nat) : String := ⟨s.data.drop n⟩

/-- Substring test on character lists: `needle` occurs contiguously in `hay`
(Python's `needle in hay`). -/
def listInfix (needle : List Char) : List Char → Bool
  | [] => needle.isEmpty
  | h :: t => needle.isPrefixOf (h :: t) || listInfix needle t

/-- Python `needle in hay` on strings. -/
def strContains (hay needle : String) : Bool := listInfix needle.data hay.data

/-- `any(kw in s for kw in kws)`. -/
def containsAny (s : String) (kws : List String) : Bool :=
  kws.any fun kw => strContains s kw

/-- Python `s.startswith(p)`. -/
def pyStartsWith (s p : String) : Bool := p.data.isPrefixOf s.data

/-- Python `s.endswith(p)`. -/
def pyEndsWith (s p : String) : Bool := p.data.isSuffixOf s.data

/-- Helper for `str.count`: scan with an explicit skip counter so the
recursion is structural.  At skip 0 a match consumes the whole needle
(non-overlapping count, as in Python). -/
def countTokAux (kw : List Char) : Nat → List Char → Nat
  | _, [] => 0
  | Nat.succ n, _ :: t => countTokAux kw n t
  | 0, h :: t =>
    if kw.isPrefixOf (h :: t) then 1 + countTokAux kw (kw.length - 1) t
    else countTokAux kw 0 t

/-- Python `hay.count(needle)` (non-overlapping; `hay.count("")` is `len+1`). -/
def pyCount (hay needle : String) : Nat :=
  match needle.data with
  | [] => hay.data.length + 1
  | l => countTokAux l 0 hay.data

/-- The character `kw.length` positions into `l` is absent or a non-word
character (the trailing `\b` of a regex match). -/
def boundaryAfterOk (kw l : List Char) : Bool :=
  match l.drop kw.length with
  | [] => true
  | c :: _ => !isWordChar c

/-- Count of `re.findall(rf'\b{kw}\b', text)` matches: left-to-right scan
carrying whether the previous character was a word character, with a skip
counter after each match (structural recursion). -/
def countWBAux (kw : List Char) : Bool → Nat → List Char → Nat
  | _, _, [] => 0
  | prevW, Nat.succ n, _ :: t => countWBAux kw prevW n t
  | prevW, 0, h :: t =>
    if !prevW && kw.isPrefixOf (h :: t) && boundaryAfterOk kw (h :: t) then
      1 + countWBAux kw (isWordChar (kw.getLastD h)) (kw.length - 1) t
    else countWBAux kw (isWordChar h) 0 t

/-- Number of word-bounded occurrences of `kw` in `text`
(`len(re.findall(rf'\b{kw}\b', text))`). -/
def countWordBounded (text kw : String) : Nat :=
  match kw.data with
  | [] => 0
  | l => countWBAux l false 0 text.data

/-- `str.split()` accumulator: builds the current word in reverse. -/
def pySplitAux : List Char → List Char → List String
  | cur, [] => if cur.isEmpty then [] else [⟨cur.reverse⟩]
  | cur, c :: t =>
    if isWs c then
      if cur.isEmpty then pySplitAux [] t
      else (⟨cur.reverse⟩ : String) :: pySplitAux [] t
    else pySplitAux (c :: cur) t

/-- Python `s.split()` (split on whitespace runs, no empty fields). -/
def pySplitWs (s : String) : List String := pySplitAux [] s.data

/-- Python `s.split(sep)` for a single-character separator (keeps empty fields). -/
def splitOnChar (sep : Char) : List Char → List (List Char)
  | [] => [[]]
  | c :: t =>
    if c = sep then [] :: splitOnChar sep t
    else
      match splitOnChar sep t with
      | [] => [[c]]
      | g :: gs => (c :: g) :: gs

/-- Python `s.split(sep)` for a multi-character separator, with a skip
counter so the recursion is structural. -/
def splitSeqAux (sep : List Char) : Nat → List Char → List (List Char)
  | Nat.succ n, _ :: t => splitSeqAux sep n t
  | Nat.succ _, [] => [[]]
  | 0, [] => [[]]
  | 0, c :: t =>
    if sep.isPrefixOf (c :: t) then [] :: splitSeqAux sep (sep.length - 1) t
    else
      match splitSeqAux sep 0 t with
      | [] => [[c]]
      | g :: gs => (c :: g) :: gs

/-- Python `s.split(sep)` (`sep` non-empty). -/
def pySplitOn (s sep : String) : List String :=
  match sep.data with
  | [] => [s]
  | l => (splitSeqAux l 0 s.data).map fun g => (⟨g⟩ : String)

/-- Python `sep.join(l)`. -/
def pyJoin (sep : String) : List String → String
  | [] => ""
  | [x] => x
  | x :: y :: t => x ++ sep ++ pyJoin sep (y :: t)

/-- Python `s.replace(a, b)` for single characters. -/
def charReplace (s : String) (a b : Char) : String :=
  ⟨s.data.map fun c => if c = a then b else c⟩

/-- Python `s.title()` (ASCII model: a letter is uppercased after a
non-letter, lowercased otherwise). -/
def pyTitleAux : Bool → List Char → List Char
  | _, [] => []
  | prevAlpha, c :: t =>
    (if c.isAlpha then (if prevAlpha then c.toLower else c.toUpper) else c)
      :: pyTitleAux c.isAlpha t

/-- Python `s.title()`. -/
def pyTitle (s : String) : String := ⟨pyTitleAux false s.data⟩

/-- `re.sub(r'\s+', ' ', ·)`: collapse whitespace runs to a single space. -/
def collapseWsAux : Bool → List Char → List Char
  | _, [] => []
  | prevWs, c :: t =>
    if isWs c then
      if prevWs then collapseWsAux true t else ' ' :: collapseWsAux true t
    else c :: collapseWsAux false t

/-- Python-style first maximum: `max(items, key=value)` keeps the current
best and replaces it only on a strictly greater value, so on a tie the
first-enumerated element wins. -/
def pyMaxAux (b : String × Nat) : List (String × Nat) → String × Nat
  | [] => b
  | x :: xs => pyMaxAux (if x.2 > b.2 then x else b) xs

/-- Python's banker's rounding to two decimal places on exact rationals
(`round(x, 2)`). -/
def pyRound2 (q : ℚ) : ℚ :=
  let x : ℚ := q * 100
  let n : ℤ := ⌊x⌋
  let f : ℚ := x - n
  let r : ℤ :=
    if f < 1/2 then n
    else if f > 1/2 then n + 1
    else if Even n then n else n + 1
  (r : ℚ) / 100

/-- Python `min(a, b)` on rationals (`a` on ties), kept as an explicit
`if` so that it evaluates by `decide`. -/
def pyMin (a b : ℚ) : ℚ := if a ≤ b then a else b

theorem pyMin_nonneg (a b : ℚ) (ha : 0 ≤ a) (hb : 0 ≤ b) : 0 ≤ pyMin a b := by
  unfold pyMin
  split_ifs <;> assumption

theorem pyMin_le_left (a b : ℚ) : pyMin a b ≤ a := by
  unfold pyMin
  split_ifs with h
  · exact le_refl a
  · linarith [lt_of_not_le h]

/-! ## Data model: normalized extraction results (`pdf_processor.py`) -/

/-- `DocumentMetadata` dict shape. -/
structure Metadata where
  title : String
  author : String
  subject : String
  creator : String
  producer : String
  pages : Nat
  file_size : Nat
deriving DecidableEq, Repr

/-- One entry of `structure["sections"]`. -/
structure Sec where
  title : String
  page : Nat
  font_size : ℚ
deriving DecidableEq, Repr

/-- `DocumentStructure` dict shape. -/
structure DocStructure where
  sections : List Sec
  total_pages : Nat
deriving DecidableEq, Repr

/-- One entry of `content["text_content"]`. -/
structure ContentBlock where
  text : String
  page : Nat
deriving DecidableEq, Repr

/-- `DocumentContent` dict shape. -/
structure Content where
  text_content : List ContentBlock
  total_paragraphs : Nat
deriving DecidableEq, Repr

/-- The normalized result dict every backend and the coordinator return.
The `structure` key of the Python dict is named `struct` here because
`structure` is a Lean keyword.  `error` is `none` when the key is absent. -/
structure ExtractionResult where
  metadata : Metadata
  struct : DocStructure
  content : Content
  processing_method : String
  error : Option String := none
deriving DecidableEq, Repr

/-- `PDFProcessor._get_default_metadata`. -/
def getDefaultMetadata : Metadata :=
  { title := "PDF Document", author := "Unknown", subject := "PDF Content",
    creator := "PDF Processor", producer := "Unknown", pages := 1, file_size := 0 }

/-- `PDFProcessor._create_error_result`. -/
def createErrorResult (error_message : String) : ExtractionResult :=
  { metadata := getDefaultMetadata,
    struct := { sections := [], total_pages := 1 },
    content := { text_content := [], total_paragraphs := 0 },
    processing_method := "Error",
    error := some error_message }

/-! ## Extraction backends

Each backend is a pure function from a model of what its PDF library
reports to an `ExtractionResult`.  A backend that throws at the coordinator
level is modelled as the outcome `none : Option ExtractionResult`. -/

/-- One span of a PyMuPDF text line: its text and font size. -/
structure Span where
  text : String
  size : ℚ
deriving DecidableEq, Repr

/-- One PyMuPDF line (its `spans`). -/
structure FitzLine where
  spans : List Span
deriving DecidableEq, Repr

/-- A PyMuPDF block: a text block carries `lines`; other blocks (images)
have no `"lines"` key. -/
inductive FitzBlock where
  | textBlock (lines : List FitzLine)
  | otherBlock
deriving DecidableEq, Repr

/-- One PyMuPDF page: its `get_text("dict")["blocks"]` and its plain
`get_text()` output. -/
structure FitzPage where
  blocks : List FitzBlock
  text : String
deriving DecidableEq, Repr

/-- What `fitz.open` yields: encryption flag, metadata dict fields (with
the `.get(…, "")` defaults already applied), file size, and pages. -/
structure FitzDoc where
  needs_pass : Bool
  title : String
  author : String
  subject : String
  creator : String
  producer : String
  file_size : Nat
  pages : List FitzPage
deriving DecidableEq, Repr

/-- `PDFProcessor._extract_metadata_fitz`. -/
def extractMetadataFitz (d : FitzDoc) : Metadata :=
  { title := d.title, author := d.author, subject := d.subject,
    creator := d.creator, producer := d.producer,
    pages := d.pages.length, file_size := d.file_size }

/-- The section a PyMuPDF line contributes: the first span whose stripped
text is longer than 5 characters and whose font size exceeds 11 (the
`break` leaves the span loop after one hit; the line and block loops
continue). -/
def sectionOfFitzLine (pageNum : Nat) (l : FitzLine) : Option Sec :=
  (l.spans.find? fun sp =>
      decide ((pyStrip sp.text).data.length > 5) && decide (sp.size > 11)).map
    fun sp => { title := pyTake (pyStrip sp.text) 100, page := pageNum + 1,
                font_size := sp.size }

/-- Sections contributed by one PyMuPDF page. -/
def sectionsOfFitzPage (pageNum : Nat) (p : FitzPage) : List Sec :=
  p.blocks.flatMap fun b =>
    match b with
    | FitzBlock.textBlock lines => lines.filterMap (sectionOfFitzLine pageNum)
    | FitzBlock.otherBlock => []

/-- `PDFProcessor._extract_structure_fitz` (sections truncated to 10). -/
def extractStructureFitz (d : FitzDoc) : DocStructure :=
  { sections :=
      ((d.pages.enum.flatMap fun pi => sectionsOfFitzPage pi.1 pi.2).take 10),
    total_pages := d.pages.length }

/-- Paragraphs one page contributes to the content extractors: split on
blank lines, strip, drop empties, keep the first 3, keep those longer than
20 characters, truncate each to 500. -/
def paragraphsOfPageText (pageNum : Nat) (text : String) : List ContentBlock :=
  (((pySplitOn text "\n\n").map pyStrip).filter (fun p => p ≠ "")).take 3
    |>.filterMap fun p =>
      if p.data.length > 20 then
        some { text := pyTake p 500, page := pageNum + 1 }
      else none

/-- `PDFProcessor._extract_content_fitz` (page text must be non-blank). -/
def extractContentFitz (d : FitzDoc) : Content :=
  let tc := d.pages.enum.flatMap fun pi =>
    if pyStrip pi.2.text ≠ "" then paragraphsOfPageText pi.1 pi.2.text else []
  { text_content := tc, total_paragraphs := tc.length }

/-- `PDFProcessor._process_with_fitz`. -/
def processWithFitz (d : FitzDoc) : ExtractionResult :=
  if d.needs_pass then createErrorResult "Password-protected PDF"
  else
    { metadata := extractMetadataFitz d,
      struct := extractStructureFitz d,
      content := extractContentFitz d,
      processing_method := "PyMuPDF",
      error := none }

/-- What `PyPDF2.PdfReader` yields: encryption flag, metadata fields (with
defaults applied) and the `extract_text()` output of each page. -/
structure Pypdf2Reader where
  is_encrypted : Bool
  title : String
  author : String
  subject : String
  creator : String
  producer : String
  page_texts : List String
deriving DecidableEq, Repr

/-- `PDFProcessor._extract_metadata_pypdf2` (`file_size` is set to 0). -/
def extractMetadataPypdf2 (r : Pypdf2Reader) : Metadata :=
  { title := r.title, author := r.author, subject := r.subject,
    creator := r.creator, producer := r.producer,
    pages := r.page_texts.length, file_size := 0 }

/-- The section one PyPDF2 page contributes: among the first 5 lines, the
first whose stripped length is strictly between 10 and 100. -/
def sectionOfPypdf2Page (pageNum : Nat) (text : String) : Option Sec :=
  if text ≠ "" then
    (((pySplitOn text "\n").take 5).find? fun line =>
        decide ((pyStrip line).data.length > 10) &&
        decide ((pyStrip line).data.length < 100)).map
      fun line => { title := pyTake (pyStrip line) 100, page := pageNum + 1,
                    font_size := 12 }
  else none

/-- `PDFProcessor._extract_structure_pypdf2` (sections truncated to 10). -/
def extractStructurePypdf2 (r : Pypdf2Reader) : DocStructure :=
  { sections :=
      (r.page_texts.enum.filterMap fun pi => sectionOfPypdf2Page pi.1 pi.2).take 10,
    total_pages := r.page_texts.length }

/-- `PDFProcessor._extract_content_pypdf2`. -/
def extractContentPypdf2 (r : Pypdf2Reader) : Content :=
  let tc := r.page_texts.enum.flatMap fun pi =>
    if pi.2 ≠ "" then paragraphsOfPageText pi.1 pi.2 else []
  { text_content := tc, total_paragraphs := tc.length }

/-- `PDFProcessor._process_with_pypdf2`. -/
def processWithPypdf2 (r : Pypdf2Reader) : ExtractionResult :=
  if r.is_encrypted then createErrorResult "Password-protected PDF"
  else
    { metadata := extractMetadataPypdf2 r,
      struct := extractStructurePypdf2 r,
      content := extractContentPypdf2 r,
      processing_method := "PyPDF2",
      error := none }

/-- What `pdfplumber.open` yields: the `extract_text()` output of each page
(an empty string models a falsy extraction). -/
structure PlumberPdf where
  page_texts : List String
deriving DecidableEq, Repr

/-- `PDFProcessor._extract_metadata_pdfplumber` (fixed placeholder fields). -/
def extractMetadataPdfplumber (p : PlumberPdf) : Metadata :=
  { title := "PDF Document", author := "Unknown", subject := "PDF Content",
    creator := "pdfplumber", producer := "Unknown",
    pages := p.page_texts.length, file_size := 0 }

/-- `PDFProcessor._extract_structure_pdfplumber` (one synthetic section per
page with text, truncated to 10). -/
def extractStructurePdfplumber (p : PlumberPdf) : DocStructure :=
  { sections :=
      (p.page_texts.enum.filterMap fun pi =>
        if pi.2 ≠ "" then
          some { title := "Page " ++ toString (pi.1 + 1) ++ " Content",
                 page := pi.1 + 1, font_size := (12 : ℚ) }
        else none).take 10,
    total_pages := p.page_texts.length }

/-- `PDFProcessor._extract_content_pdfplumber`. -/
def extractContentPdfplumber (p : PlumberPdf) : Content :=
  let tc := p.page_texts.enum.flatMap fun pi =>
    if pi.2 ≠ "" then paragraphsOfPageText pi.1 pi.2 else []
  { text_content := tc, total_paragraphs := tc.length }

/-- `PDFProcessor._process_with_pdfplumber`. -/
def processWithPdfplumber (p : PlumberPdf) : ExtractionResult :=
  { metadata := extractMetadataPdfplumber p,
    struct := extractStructurePdfplumber p,
    content := extractContentPdfplumber p,
    processing_method := "pdfplumber",
    error := none }

/-- `PDFProcessor._process_basic`: no parsing, a single synthetic section
and paragraph naming the file. -/
def processBasic (filename : String) (file_size : Nat) : ExtractionResult :=
  { metadata :=
      { title := filename, author := "Unknown", subject := "PDF Document",
        creator := "Unknown", producer := "Unknown", pages := 1,
        file_size := file_size },
    struct :=
      { sections := [{ title := "Document Content", page := 1, font_size := 12 }],
        total_pages := 1 },
    content :=
      { text_content := [{ text := "PDF content could not be extracted", page := 1 }],
        total_paragraphs := 1 },
    processing_method := "Basic",
    error := none }

/-! ## Extraction coordinator -/

/-- One step of `_process_with_fallback`: accept the backend's result when
it exists (`none` models the backend throwing, caught and logged) and its
`error` key is unset; otherwise move on. -/
def tryMethod (o : Option ExtractionResult) (next : ExtractionResult) : ExtractionResult :=
  match o with
  | some r => if r.error = none then r else next
  | none => next

/-- `PDFProcessor._process_with_fallback`: PyMuPDF, then PyPDF2, then
pdfplumber, then basic analysis, then the synthesized total-failure result. -/
def processWithFallback (o1 o2 o3 o4 : Option ExtractionResult) : ExtractionResult :=
  tryMethod o1 (tryMethod o2 (tryMethod o3 (tryMethod o4
    (createErrorResult "All processing methods failed"))))

/-- `PDFProcessor.process_pdf`: file validation, then the fallback chain.
Filesystem facts are parameters of the model. -/
def processPdf (fileExists readable : Bool) (fileSize : Nat)
    (o1 o2 o3 o4 : Option ExtractionResult) : ExtractionResult :=
  if !fileExists then createErrorResult "File not found"
  else if !readable then createErrorResult "File not readable"
  else if fileSize = 0 then createErrorResult "Empty file"
  else processWithFallback o1 o2 o3 o4

/-- A backend outcome that does not yield an accepted result: the backend
threw (`none`) or returned a result whose `error` key is set. -/
def failedOutcome (o : Option ExtractionResult) : Prop :=
  ∀ r, o = some r → r.error ≠ none

theorem tryMethod_of_failed {o : Option ExtractionResult} (h : failedOutcome o)
    (next : ExtractionResult) : tryMethod o next = next := by
  cases o with
  | none => rfl
  | some r =>
    have hr := h r rfl
    simp [tryMethod]
    intro hc
    exact absurd hc hr

/-! ## Coordinator claims -/

theorem processWithFitz_sections_le (d : FitzDoc) :
    (processWithFitz d).struct.sections.length ≤ 10 := by
  by_cases h : d.needs_pass <;>
    simp [processWithFitz, h, createErrorResult, extractStructureFitz,
      List.length_take]

theorem processWithPypdf2_sections_le (r : Pypdf2Reader) :
    (processWithPypdf2 r).struct.sections.length ≤ 10 := by
  by_cases h : r.is_encrypted <;>
    simp [processWithPypdf2, h, createErrorResult, extractStructurePypdf2,
      List.length_take]

theorem processWithPdfplumber_sections_le (p : PlumberPdf) :
    (processWithPdfplumber p).struct.sections.length ≤ 10 := by
  simp [processWithPdfplumber, extractStructurePdfplumber, List.length_take]

theorem tryMethod_sections_le (o : Option ExtractionResult) (next : ExtractionResult)
    (ho : ∀ r, o = some r → r.struct.sections.length ≤ 10)
    (hn : next.struct.sections.length ≤ 10) :
    (tryMethod o next).struct.sections.length ≤ 10 := by
  cases o with
  | none => exact hn
  | some r =>
    by_cases h : r.error = none
    · simpa [tryMethod, h] using ho r rfl
    · simpa [tryMethod, h] using hn

/-- C10: every extraction result has at most 10 sections — each of the
three library backends truncates its detected sections to the first 10,
the Basic fallback returns exactly one synthetic section, and therefore
every result `process_pdf` can return (successful ones in particular) has
`structure.sections` of length at most 10. -/
theorem sections_capped_at_ten :
    (∀ d : FitzDoc, (extractStructureFitz d).sections.length ≤ 10) ∧
    (∀ r : Pypdf2Reader, (extractStructurePypdf2 r).sections.length ≤ 10) ∧
    (∀ p : PlumberPdf, (extractStructurePdfplumber p).sections.length ≤ 10) ∧
    (∀ (fn : String) (sz : Nat), (processBasic fn sz).struct.sections.length = 1) ∧
    (∀ (fe re : Bool) (sz : Nat) (d : Option FitzDoc) (r : Option Pypdf2Reader)
       (p : Option PlumberPdf) (b : Option (String × Nat)),
       (processPdf fe re sz (d.map processWithFitz) (r.map processWithPypdf2)
          (p.map processWithPdfplumber)
          (b.map fun x => processBasic x.1 x.2)).struct.sections.length ≤ 10) := by
  refine ⟨?_, ?_, ?_, ?_, ?_⟩
  · intro d
    simp [extractStructureFitz, List.length_take]
  · intro r
    simp [extractStructurePypdf2, List.length_take]
  · intro p
    simp [extractStructurePdfplumber, List.length_take]
  · intro fn sz
    rfl
  · intro fe re sz d r p b
    have herr : ∀ m : String, (createErrorResult m).struct.sections.length ≤ 10 := by
      intro m; simp [createErrorResult]
    cases fe with
    | false => exact herr _
    | true =>
      cases re with
      | false => exact herr _
      | true =>
        by_cases hsz : sz = 0
        · simp [processPdf, hsz, createErrorResult]
        · simp only [processPdf, Bool.not_true, Bool.false_eq_true, if_false, hsz,
            if_false, processWithFallback]
          refine tryMethod_sections_le _ _ ?_ (tryMethod_sections_le _ _ ?_
            (tryMethod_sections_le _ _ ?_ (tryMethod_sections_le _ _ ?_ (herr _))))
          · intro x hx
            cases d with
            | none => exact Option.noConfusion hx
            | some dd =>
              rw [← Option.some_inj.mp hx]
              exact processWithFitz_sections_le dd
          · intro x hx
            cases r with
            | none => exact Option.noConfusion hx
            | some rr =>
              rw [← Option.some_inj.mp hx]
              exact processWithPypdf2_sections_le rr
          · intro x hx
            cases p with
            | none => exact Option.noConfusion hx
            | some pp =>
              rw [← Option.some_inj.mp hx]
              exact processWithPdfplumber_sections_le pp
          · intro x hx
            cases b with
            | none => exact Option.noConfusion hx
            | some bb =>
              rw [← Option.some_inj.mp hx]
              show (1 : Nat) ≤ 10
              norm_num

/-- C1: if file validation passes but every backend fails or throws,
`process_pdf` returns the synthesized total-failure result: its `error`
field is exactly `"All processing methods failed"`, its sections and text
content are empty, `total_paragraphs` is 0 and the metadata is the default
metadata.  (The model is a total function, so no exception can reach the
caller.) -/
theorem processPdf_total_failure
    (fileExists readable : Bool) (fileSize : Nat)
    (o1 o2 o3 o4 : Option ExtractionResult)
    (hE : fileExists = true) (hR : readable = true) (hS : fileSize ≠ 0)
    (h1 : failedOutcome o1) (h2 : failedOutcome o2)
    (h3 : failedOutcome o3) (h4 : failedOutcome o4) :
    processPdf fileExists readable fileSize o1 o2 o3 o4
      = createErrorResult "All processing methods failed" ∧
    (processPdf fileExists readable fileSize o1 o2 o3 o4).error
      = some "All processing methods failed" ∧
    (processPdf fileExists readable fileSize o1 o2 o3 o4).struct.sections = [] ∧
    (processPdf fileExists readable fileSize o1 o2 o3 o4).content.text_content = [] ∧
    (processPdf fileExists readable fileSize o1 o2 o3 o4).content.total_paragraphs = 0 ∧
    (processPdf fileExists readable fileSize o1 o2 o3 o4).metadata = getDefaultMetadata := by
  subst hE hR
  have hmain : processPdf true true fileSize o1 o2 o3 o4
      = createErrorResult "All processing methods failed" := by
    simp only [processPdf, Bool.not_true, Bool.false_eq_true, if_false, hS,
      processWithFallback, tryMethod_of_failed h1, tryMethod_of_failed h2,
      tryMethod_of_failed h3, tryMethod_of_failed h4]
  refine ⟨hmain, ?_, ?_, ?_, ?_, ?_⟩ <;> rw [hmain] <;> rfl

theorem processPdf_total_failure_witness :
    processPdf true true 1 none none none none
      = createErrorResult "All processing methods failed" ∧
    (processPdf true true 1 none none none none).error
      = some "All processing methods failed" ∧
    (processPdf true true 1 none none none none).struct.sections = [] ∧
    (processPdf true true 1 none none none none).content.text_content = [] ∧
    (processPdf true true 1 none none none none).content.total_paragraphs = 0 ∧
    (processPdf true true 1 none none none none).metadata = getDefaultMetadata :=
  processPdf_total_failure true true 1 none none none none rfl rfl
    (by decide)
    (fun _ h => Option.noConfusion h) (fun _ h => Option.noConfusion h)
    (fun _ h => Option.noConfusion h) (fun _ h => Option.noConfusion h)

/-- A concrete successful pdfplumber-style result. -/
def plumberOkResult : ExtractionResult :=
  { metadata :=
      { title := "PDF Document", author := "Unknown", subject := "PDF Content",
        creator := "pdfplumber", producer := "Unknown", pages := 1, file_size := 0 },
    struct := { sections := [{ title := "Page 1 Content", page := 1, font_size := 12 }],
                total_pages := 1 },
    content := { text_content := [{ text := "Some extracted paragraph text here, long enough.", page := 1 }],
                 total_paragraphs := 1 },
    processing_method := "pdfplumber",
    error := none }

/-- Counterexample to C8 as stated: if the first backend throws and the
second backend's own result carries an error, the coordinator does *not*
return what the second backend alone would have produced — it moves on and
returns the third backend's result. -/
theorem fallback_not_always_second_backend :
    processWithFallback none (some (createErrorResult "PyPDF2 error: boom"))
        (some plumberOkResult) none = plumberOkResult ∧
    processWithFallback none (some (createErrorResult "PyPDF2 error: boom"))
        (some plumberOkResult) none ≠ createErrorResult "PyPDF2 error: boom" := by
  constructor
  · rfl
  · decide

/-- C8 (amended): if the first backend throws or signals an error and the
second backend returns a result without an error flag, the coordinator's
result is identical to that second-backend result — the failed first
attempt leaves no state that alters it.  (As stated the claim also covered
the case where backend 2 itself fails, where the coordinator instead
continues to later backends; see the counterexample.) -/
theorem fallback_uses_second_backend
    (o1 : Option ExtractionResult) (r2 : ExtractionResult)
    (o3 o4 : Option ExtractionResult)
    (h1 : failedOutcome o1) (h2 : r2.error = none) :
    processWithFallback o1 (some r2) o3 o4 = r2 := by
  rw [processWithFallback, tryMethod_of_failed h1]
  simp [tryMethod, h2]

theorem fallback_uses_second_backend_witness :
    processWithFallback none (some plumberOkResult) none none = plumberOkResult :=
  fallback_uses_second_backend none plumberOkResult none none
    (fun _ h => Option.noConfusion h) rfl

/-! ## Content enhancement engine (`output_formatter.py`) -/

/-- The "generic" words of `_enhance_section_title`'s early return. -/
def genericTitleWords : List String :=
  ["introduction", "overview", "guide", "manual", "section", "chapter", "page", "welcome"]

/-- The action verbs of `_enhance_section_title`'s technical branch. -/
def actionWords : List String :=
  ["create", "convert", "export", "edit", "fill", "sign", "share", "request", "generate"]

/-- First `a`, else `b` (a Python `return` inside a block falling through
to later code). -/
def optOr (a b : Option String) : Option String :=
  match a with
  | some r => some r
  | none => b

/-- The action-verb extraction block of the technical branch: if the
lowered title mentions an action verb and the title has at least two
words, return the first word containing an action verb together with the
following word. -/
def techActionExtract (title : String) : Option String :=
  if containsAny (pyLower title) actionWords then
    let words := pySplitWs title
    if words.length ≥ 2 then
      match words.enum.find? (fun iw => containsAny (pyLower iw.2) actionWords) with
      | some iw =>
        some (if iw.1 + 1 < words.length then iw.2 ++ " " ++ words.getD (iw.1 + 1) ""
              else iw.2)
      | none => none
    else none
  else none

/-- The canned-label chain of the technical/Acrobat branch. -/
def techCanned (tl : String) : Option String :=
  if strContains tl "fill and sign" then some "Fill and sign PDF forms"
  else if strContains tl "e-signature" || strContains tl "signature" then
    some "Send document for signatures"
  else if strContains tl "export" then some "Export PDF content"
  else if strContains tl "edit" then some "Edit PDF content"
  else if strContains tl "share" then some "Share PDF documents"
  else if strContains tl "create" || strContains tl "convert" then
    some "Create and convert PDFs"
  else if strContains tl "generative ai" then some "Use generative AI features"
  else if strContains tl "form" then some "Change flat forms to fillable"
  else if strContains tl "multiple" then some "Create multiple PDFs"
  else if strContains tl "clipboard" then some "Convert clipboard content"
  else none

/-- The canned-label chain of the travel branch. -/
def travelCanned (tl : String) : Option String :=
  if containsAny tl ["activities", "things", "attractions"] then some "Activities"
  else if containsAny tl ["tips", "advice", "planning"] then some "Travel tips"
  else if containsAny tl ["cuisine", "food", "dining"] then some "Cuisine"
  else if containsAny tl ["culture", "tradition", "heritage"] then some "Culture"
  else if containsAny tl ["city", "cities", "urban"] then some "Cities"
  else if containsAny tl ["coastal", "beach", "sea"] then some "Coastal activities"
  else if containsAny tl ["nightlife", "entertainment"] then some "Nightlife"
  else if containsAny tl ["history", "historical"] then some "History"
  else none

/-- The canned-label chain of the business branch. -/
def businessCanned (tl : String) : Option String :=
  if containsAny tl ["analysis", "overview", "summary"] then some "Analysis"
  else if containsAny tl ["strategy", "planning", "management"] then some "Strategy"
  else if containsAny tl ["financial", "finance", "budget"] then some "Financial"
  else if containsAny tl ["market", "marketing", "sales"] then some "Marketing"
  else none

/-- The canned-label chain of the academic branch. -/
def academicCanned (tl : String) : Option String :=
  if containsAny tl ["methodology", "methods"] then some "Methodology"
  else if containsAny tl ["results", "findings", "analysis"] then some "Results"
  else if containsAny tl ["literature", "review", "background"] then some "Literature review"
  else if containsAny tl ["conclusion", "discussion"] then some "Discussion"
  else none

/-- The canned-label chain of the legal branch. -/
def legalCanned (tl : String) : Option String :=
  if containsAny tl ["terms", "conditions", "clauses"] then some "Terms"
  else if containsAny tl ["rights", "obligations", "liability"] then some "Rights"
  else if containsAny tl ["compliance", "regulatory"] then some "Compliance"
  else none

/-- The canned-label chain of the medical branch. -/
def medicalCanned (tl : String) : Option String :=
  if containsAny tl ["diagnosis", "assessment", "evaluation"] then some "Diagnosis"
  else if containsAny tl ["treatment", "therapy", "intervention"] then some "Treatment"
  else if containsAny tl ["symptoms", "signs", "manifestation"] then some "Symptoms"
  else if containsAny tl ["medication", "drug", "prescription"] then some "Medication"
  else none

/-- The default fallback of `_enhance_section_title`: for long titles take
the stripped text before the first period, or its first three words; for
short titles, the first 30 characters. -/
def defaultTitle (title : String) : String :=
  if pyLen title > 30 then
    match splitOnChar '.' title.data with
    | [] => pyTake title 30
    | s :: _ =>
      let first_sentence := pyStrip ⟨s⟩
      if pyLen first_sentence ≤ 30 then first_sentence
      else pyJoin " " ((pySplitWs first_sentence).take 3)
  else pyTake title 30

/-- The domain-bucket dispatch of `_enhance_section_title`: the filename
buckets are checked in order (technical, travel, business, academic,
legal, medical); `none` means no bucket matched or the matched bucket's
chain fell through to the default fallback. -/
def bucketDispatch (doc_lower title : String) : Option String :=
  if containsAny doc_lower ["acrobat", "pdf", "technical", "learn"] then
    optOr (techActionExtract title) (techCanned (pyLower title))
  else if containsAny doc_lower ["travel", "tourism", "destination", "vacation"] then
    travelCanned (pyLower title)
  else if containsAny doc_lower ["business", "corporate", "financial", "report"] then
    businessCanned (pyLower title)
  else if containsAny doc_lower ["research", "study", "academic", "thesis", "paper"] then
    academicCanned (pyLower title)
  else if containsAny doc_lower ["legal", "law", "contract", "agreement"] then
    legalCanned (pyLower title)
  else if containsAny doc_lower ["medical", "health", "clinical", "patient"] then
    medicalCanned (pyLower title)
  else none

/-- `OutputFormatter._enhance_section_title`. -/
def enhanceSectionTitle (document_name original_title : String) : String :=
  let title := pyStrip original_title
  if pyLen title ≤ 30 ∧ containsAny (pyLower title) genericTitleWords = false then title
  else
    match bucketDispatch (pyLower document_name) title with
    | some r => r
    | none => defaultTitle title

/-- `_enhance_section_title` with the travel, business, academic, legal and
medical buckets removed: only the early return, the technical branch and
the default fallback remain. -/
def enhanceTitleTechOnly (document_name original_title : String) : String :=
  let title := pyStrip original_title
  if pyLen title ≤ 30 ∧ containsAny (pyLower title) genericTitleWords = false then title
  else
    match optOr (techActionExtract title) (techCanned (pyLower title)) with
    | some r => r
    | none => defaultTitle title

/-! ## Claims C2 and C9 -/

theorem listInfix_iff (n h : List Char) : listInfix n h = true ↔ n <:+: h := by
  induction h with
  | nil =>
    simp [listInfix, List.isEmpty_iff]
  | cons c t ih =>
    rw [listInfix, Bool.or_eq_true, List.isPrefixOf_iff_prefix, ih]
    exact (List.infix_cons_iff).symm

theorem strContains_pyLower_pdf (s : String) (h : strContains s "pdf" = true) :
    strContains (pyLower s) "pdf" = true := by
  rw [strContains, listInfix_iff] at h ⊢
  obtain ⟨u, v, huv⟩ := h
  refine ⟨u.map Char.toLower, v.map Char.toLower, ?_⟩
  have : (pyLower s).data = s.data.map Char.toLower := rfl
  rw [this, ← huv]
  simp

/-- Counterexample to C2 as stated: enhancing the long coastal-activities
heading for `travel_guide.pdf` does not return `"Coastal activities"` —
the substring `"pdf"` of the filename routes it to the technical branch. -/
theorem enhance_title_travel_counterexample :
    enhanceSectionTitle "travel_guide.pdf"
        "A very long section heading about coastal activities and beaches"
      ≠ "Coastal activities" := by
  decide

/-- C2 (amended): enhancing the title
`"A very long section heading about coastal activities and beaches"` for
the document `"travel_guide.pdf"` returns `"A very long"`: the filename
contains `"pdf"`, so the technical/Acrobat bucket is chosen; none of its
sub-keywords match, and the default fallback returns the first three words
of the (period-free, over-30-character) title. -/
theorem enhance_title_travel_amended :
    enhanceSectionTitle "travel_guide.pdf"
        "A very long section heading about coastal activities and beaches"
      = "A very long" := by
  decide

/-- C9: for every document name containing the substring `"pdf"` (hence
every `.pdf` filename), `_enhance_section_title` takes the
technical/Acrobat branch, so the travel, business, academic, legal and
medical buckets and their canned labels are unreachable: the function
coincides with the variant from which those buckets are removed, which can
only return the unchanged short title, a technical label/extraction, or
the generic truncation fallbacks. -/
theorem pdf_filename_takes_technical_branch
    (document_name original_title : String)
    (h : strContains document_name "pdf" = true) :
    enhanceSectionTitle document_name original_title
      = enhanceTitleTechOnly document_name original_title := by
  have hl := strContains_pyLower_pdf document_name h
  have hc : containsAny (pyLower document_name)
      ["acrobat", "pdf", "technical", "learn"] = true := by
    simp [containsAny, hl]
  simp only [enhanceSectionTitle, enhanceTitleTechOnly, bucketDispatch, hc, if_true]

theorem pdf_filename_takes_technical_branch_witness :
    enhanceSectionTitle "travel_history.pdf" "Chapter about the history of coastal towns"
      = enhanceTitleTechOnly "travel_history.pdf" "Chapter about the history of coastal towns" :=
  pdf_filename_takes_technical_branch "travel_history.pdf"
    "Chapter about the history of coastal towns" (by decide)

/-! ## Persona heuristic engine (`persona_analyzer.py`) -/

/-- One entry of `PersonaAnalyzer.personas`. -/
structure PersonaInfo where
  keywords : List String
  focus : String
deriving DecidableEq, Repr

/-- `PersonaAnalyzer.personas` in the source's insertion order. -/
def personas : List (String × PersonaInfo) :=
  [ ("researcher",
     { keywords := ["research", "study", "analysis", "methodology", "findings",
                    "conclusion", "data", "results", "hypothesis", "experiment"],
       focus := "academic and research content" }),
    ("student",
     { keywords := ["learning", "education", "course", "assignment", "study",
                    "academic", "university", "college", "textbook", "lecture"],
       focus := "educational content and learning materials" }),
    ("business_analyst",
     { keywords := ["business", "market", "strategy", "analysis", "report",
                    "financial", "performance", "metrics", "revenue", "profit"],
       focus := "business and financial analysis" }),
    ("technical_writer",
     { keywords := ["technical", "documentation", "manual", "guide", "procedure",
                    "specification", "api", "code", "system", "implementation"],
       focus := "technical documentation and manuals" }),
    ("legal_professional",
     { keywords := ["legal", "law", "contract", "agreement", "clause",
                    "jurisdiction", "compliance", "regulation", "attorney", "court"],
       focus := "legal documents and contracts" }),
    ("medical_professional",
     { keywords := ["medical", "health", "patient", "treatment", "diagnosis",
                    "clinical", "medicine", "healthcare", "symptoms", "therapy"],
       focus := "medical and healthcare content" }),
    ("travel_planner",
     { keywords := ["travel", "tourism", "vacation", "destination", "hotel",
                    "restaurant", "attraction", "culture", "cuisine", "adventure"],
       focus := "travel and tourism content" }) ]

/-- The per-persona scores of `detect_persona`: for each persona, the sum
over its keywords of the (non-overlapping, case-insensitive) substring
occurrence counts in the space-joined text. -/
def personaScores (text_content : List ContentBlock) : List (String × Nat) :=
  personas.map fun pr =>
    (pr.1, (pr.2.keywords.map fun kw =>
        pyCount (pyLower (pyJoin " " (text_content.map ContentBlock.text)))
          (pyLower kw)).sum)

/-- `PersonaAnalyzer.detect_persona`: Python's `max(dict, key=dict.get)`
keeps the first key on ties; the winner is returned only if its score is
positive, otherwise `"general"`. -/
def detect_persona (text_content : List ContentBlock) : String :=
  match text_content with
  | [] => "general"
  | c :: tc =>
    match personaScores (c :: tc) with
    | [] => "general"
    | s :: rest =>
      if (pyMaxAux s rest).2 > 0 then (pyMaxAux s rest).1 else "general"

/-- The maximum of the scores of a score list (0 when empty). -/
def specMaxScore (scores : List (String × Nat)) : Nat :=
  (scores.map Prod.snd).foldl Nat.max 0

/-- Persona detection as claim C5 words it: the first persona of the table
whose score equals the maximum score wins; if every score is zero
(including for empty input), `"general"` is returned. -/
def specDetectPersona (text_content : List ContentBlock) : String :=
  if specMaxScore (personaScores text_content) = 0 then "general"
  else
    match (personaScores text_content).find?
        (fun p => p.2 == specMaxScore (personaScores text_content)) with
    | some p => p.1
    | none => "general"

/-- Fold computing the running maximum of scores starting from `n`. -/
def maxSc (n : Nat) (xs : List (String × Nat)) : Nat :=
  xs.foldl (fun a p => Nat.max a p.2) n

theorem maxSc_le_init (xs : List (String × Nat)) (n : Nat) : n ≤ maxSc n xs := by
  induction xs generalizing n with
  | nil => exact le_refl n
  | cons x t ih => exact le_trans (Nat.le_max_left n x.2) (ih (Nat.max n x.2))

theorem pyMaxAux_snd (xs : List (String × Nat)) : ∀ b : String × Nat,
    (pyMaxAux b xs).2 = maxSc b.2 xs := by
  induction xs with
  | nil => intro b; rfl
  | cons x t ih =>
    intro b
    show (pyMaxAux (if x.2 > b.2 then x else b) t).2 = maxSc b.2 (x :: t)
    rw [ih]
    show maxSc (if x.2 > b.2 then x else b).2 t = maxSc (Nat.max b.2 x.2) t
    congr 1
    by_cases h : x.2 > b.2
    · rw [if_pos h]
      show x.2 = max b.2 x.2
      omega
    · rw [if_neg h]
      show b.2 = max b.2 x.2
      omega

theorem pyMaxAux_find (xs : List (String × Nat)) : ∀ (b : String × Nat) (M : Nat),
    M = maxSc b.2 xs →
    (b :: xs).find? (fun p => p.2 == M) = some (pyMaxAux b xs) := by
  induction xs with
  | nil =>
    intro b M hM
    subst hM
    have hpb : (b.2 == maxSc b.2 []) = true := by
      simp [maxSc]
    simp only [List.find?_cons, hpb]
    rfl
  | cons x t ih =>
    intro b M hM
    by_cases hx : x.2 > b.2
    · have hmax : Nat.max b.2 x.2 = x.2 := by
        show max b.2 x.2 = x.2
        omega
      have hM' : M = maxSc x.2 t := by
        rw [hM]
        show maxSc (Nat.max b.2 x.2) t = maxSc x.2 t
        rw [hmax]
      have hbM : b.2 < M := lt_of_lt_of_le hx (by rw [hM']; exact maxSc_le_init t x.2)
      have hpb : (b.2 == M) = false := by
        simp
        omega
      have hstep : pyMaxAux b (x :: t) = pyMaxAux x t := by
        show pyMaxAux (if x.2 > b.2 then x else b) t = pyMaxAux x t
        rw [if_pos hx]
      rw [hstep, ← ih x M hM']
      simp only [List.find?_cons, hpb]
    · have hmax : Nat.max b.2 x.2 = b.2 := by
        show max b.2 x.2 = b.2
        omega
      have hM' : M = maxSc b.2 t := by
        rw [hM]
        show maxSc (Nat.max b.2 x.2) t = maxSc b.2 t
        rw [hmax]
      have hstep : pyMaxAux b (x :: t) = pyMaxAux b t := by
        show pyMaxAux (if x.2 > b.2 then x else b) t = pyMaxAux b t
        rw [if_neg hx]
      have ihb := ih b M hM'
      rw [hstep, ← ihb]
      by_cases hb : b.2 = M
      · have hpb : (b.2 == M) = true := by simp [hb]
        simp only [List.find?_cons, hpb]
      · have hpb : (b.2 == M) = false := by simp [hb]
        have hbltM : b.2 < M :=
          lt_of_le_of_ne (by rw [hM']; exact maxSc_le_init t b.2) hb
        have hxM : x.2 ≠ M := Nat.ne_of_lt (lt_of_le_of_lt (Nat.le_of_not_lt hx) hbltM)
        have hpx : (x.2 == M) = false := by simp [hxM]
        simp only [List.find?_cons, hpb, hpx]

theorem specMaxScore_cons (s : String × Nat) (rest : List (String × Nat)) :
    specMaxScore (s :: rest) = maxSc s.2 rest := by
  show (List.map Prod.snd (s :: rest)).foldl Nat.max 0 = maxSc s.2 rest
  rw [List.map_cons]
  show (rest.map Prod.snd).foldl Nat.max (Nat.max 0 s.2) = maxSc s.2 rest
  have h0 : Nat.max 0 s.2 = s.2 := by
    show max 0 s.2 = s.2
    omega
  rw [h0, List.foldl_map]
  rfl

theorem pyMax_vs_spec (s : String × Nat) (rest : List (String × Nat)) :
    (if (pyMaxAux s rest).2 > 0 then (pyMaxAux s rest).1 else "general")
    = (if specMaxScore (s :: rest) = 0 then "general"
       else
         match (s :: rest).find? (fun p => p.2 == specMaxScore (s :: rest)) with
         | some p => p.1
         | none => "general") := by
  have hM : specMaxScore (s :: rest) = maxSc s.2 rest := specMaxScore_cons s rest
  have hfind := pyMaxAux_find rest s (specMaxScore (s :: rest)) hM
  have hsnd : (pyMaxAux s rest).2 = specMaxScore (s :: rest) := by
    rw [pyMaxAux_snd, hM]
  by_cases h0 : specMaxScore (s :: rest) = 0
  · rw [if_pos h0]
    have hneg : ¬ (pyMaxAux s rest).2 > 0 := by rw [hsnd, h0]; exact lt_irrefl 0
    rw [if_neg hneg]
  · rw [if_neg h0, hfind]
    have hpos : (pyMaxAux s rest).2 > 0 := by rw [hsnd]; exact Nat.pos_of_ne_zero h0
    rw [if_pos hpos]

/-- C5: `detect_persona` computes, for each persona of the fixed table, the
sum of case-insensitive substring occurrence counts of its keywords over
the concatenated text, and returns the persona with the maximum score; on
a tie the first-enumerated persona wins, and when every score is zero
(including on empty input) it returns `"general"` — i.e. it coincides with
the specification-side `specDetectPersona`. -/
theorem detect_persona_matches_spec (text_content : List ContentBlock) :
    detect_persona text_content = specDetectPersona text_content := by
  cases text_content with
  | nil => decide
  | cons c tc =>
    simp only [detect_persona, specDetectPersona]
    generalize personaScores (c :: tc) = ps
    cases ps with
    | nil => simp [specMaxScore]
    | cons s rest => exact pyMax_vs_spec s rest

/-! ## Persona-specific analysis (`_analyze_for_persona`) and claim C6 -/

/-- `self.personas.get(persona_type, {}).get("keywords", [])`. -/
def personaKeywords (persona_type : String) : List String :=
  match personas.find? (fun pr => pr.1 == persona_type) with
  | some pr => pr.2.keywords
  | none => []

/-- The `keyword_matches` dict: keywords with a positive word-bounded
occurrence count in the lowered text, in keyword-list order. -/
def keywordMatches (persona_type text : String) : List (String × Nat) :=
  (personaKeywords persona_type).filterMap fun kw =>
    if countWordBounded (pyLower text) kw > 0 then
      some (kw, countWordBounded (pyLower text) kw)
    else none

/-- `total_keywords = sum(keyword_matches.values())`. -/
def totalKeywordHits (persona_type text : String) : Nat :=
  ((keywordMatches persona_type text).map Prod.snd).sum

/-- `len(text.split())`. -/
def wordCount (text : String) : Nat := (pySplitWs text).length

/-- The persona-specific part of the analysis dict (`keyword_matches` and
the rounded `relevance_score`). -/
structure PersonaSpecificAnalysis where
  keyword_matches : List (String × Nat)
  relevance_score : ℚ
deriving DecidableEq, Repr

/-- `PersonaAnalyzer._analyze_for_persona`: on a zero-word text the
division by `len(text.split())` raises `ZeroDivisionError`, which the
handler turns into an empty dict — modelled as `none`.  Otherwise the
relevance score is `min(100, (hits / words) * 10000)` rounded to two
decimal places by `round(·, 2)`. -/
def analyzeForPersona (persona_type text : String) : Option PersonaSpecificAnalysis :=
  if wordCount text = 0 then none
  else
    some { keyword_matches := keywordMatches persona_type text,
           relevance_score := pyRound2 (pyMin 100
             ((totalKeywordHits persona_type text : ℚ) / (wordCount text : ℚ) * 10000)) }

theorem pyRound2_bounds (q : ℚ) (h0 : 0 ≤ q) (h1 : q ≤ 100) :
    0 ≤ pyRound2 q ∧ pyRound2 q ≤ 100 := by
  have hx0 : (0 : ℚ) ≤ q * 100 := by positivity
  have hx1 : q * 100 ≤ 10000 := by linarith
  have hn0 : (0 : ℤ) ≤ ⌊q * 100⌋ := Int.floor_nonneg.mpr hx0
  have hnle : (⌊q * 100⌋ : ℚ) ≤ q * 100 := Int.floor_le _
  have hnup : ⌊q * 100⌋ ≤ 10000 := by
    calc ⌊q * 100⌋ ≤ ⌊(10000 : ℚ)⌋ := Int.floor_le_floor hx1
    _ = 10000 := by norm_num
  have hsucc : ¬ (q * 100 - ⌊q * 100⌋ < 1/2) → ⌊q * 100⌋ + 1 ≤ 10000 := by
    intro hf
    push_neg at hf
    have h9 : (⌊q * 100⌋ : ℚ) ≤ 19999/2 := by linarith
    have : ⌊q * 100⌋ < 10000 := by
      by_contra hc
      push_neg at hc
      have : (10000 : ℚ) ≤ (⌊q * 100⌋ : ℚ) := by exact_mod_cast hc
      linarith
    omega
  simp only [pyRound2]
  split_ifs with hf1 hf2 hev
  · constructor
    · positivity
    · rw [div_le_iff₀ (by norm_num : (0:ℚ) < 100)]
      have : (⌊q * 100⌋ : ℚ) ≤ 10000 := by exact_mod_cast hnup
      linarith
  · constructor
    · have : (0 : ℚ) ≤ (⌊q * 100⌋ : ℚ) + 1 := by
        have : (0 : ℚ) ≤ (⌊q * 100⌋ : ℚ) := by exact_mod_cast hn0
        linarith
      have hcast : ((⌊q * 100⌋ + 1 : ℤ) : ℚ) = (⌊q * 100⌋ : ℚ) + 1 := by push_cast; ring
      rw [hcast]
      positivity
    · have hle : ⌊q * 100⌋ + 1 ≤ 10000 := hsucc hf1
      have : ((⌊q * 100⌋ + 1 : ℤ) : ℚ) ≤ 10000 := by exact_mod_cast hle
      rw [div_le_iff₀ (by norm_num : (0:ℚ) < 100)]
      linarith
  · constructor
    · positivity
    · rw [div_le_iff₀ (by norm_num : (0:ℚ) < 100)]
      have : (⌊q * 100⌋ : ℚ) ≤ 10000 := by exact_mod_cast hnup
      linarith
  · constructor
    · have : (0 : ℚ) ≤ (⌊q * 100⌋ : ℚ) := by exact_mod_cast hn0
      have hcast : ((⌊q * 100⌋ + 1 : ℤ) : ℚ) = (⌊q * 100⌋ : ℚ) + 1 := by push_cast; ring
      rw [hcast]
      linarith
    · have hle : ⌊q * 100⌋ + 1 ≤ 10000 := hsucc hf1
      have : ((⌊q * 100⌋ + 1 : ℤ) : ℚ) ≤ 10000 := by exact_mod_cast hle
      rw [div_le_iff₀ (by norm_num : (0:ℚ) < 100)]
      linarith

/-- C6 (amended): whenever `_analyze_for_persona` produces a relevance
score (i.e. the text has at least one word), the score equals
`min(100, (total keyword hits / word count) × 10000)` **rounded to two
decimal places**, and therefore satisfies `0 ≤ relevance_score ≤ 100`.
On zero-word texts the division error is caught and no score is produced. -/
theorem relevance_score_bounded (persona_type text : String)
    (a : PersonaSpecificAnalysis)
    (h : analyzeForPersona persona_type text = some a) :
    0 ≤ a.relevance_score ∧ a.relevance_score ≤ 100 ∧
    a.relevance_score = pyRound2 (pyMin 100
      ((totalKeywordHits persona_type text : ℚ) / (wordCount text : ℚ) * 10000)) := by
  by_cases hw : wordCount text = 0
  · rw [analyzeForPersona, if_pos hw] at h
    exact Option.noConfusion h
  · rw [analyzeForPersona, if_neg hw] at h
    have ha := (Option.some_inj.mp h).symm
    have hv0 : (0 : ℚ) ≤ pyMin 100
        ((totalKeywordHits persona_type text : ℚ) / (wordCount text : ℚ) * 10000) := by
      apply pyMin_nonneg
      · norm_num
      · positivity
    have hv1 : pyMin 100
        ((totalKeywordHits persona_type text : ℚ) / (wordCount text : ℚ) * 10000)
        ≤ 100 := pyMin_le_left _ _
    have hb := pyRound2_bounds _ hv0 hv1
    refine ⟨?_, ?_, ?_⟩
    · rw [ha]
      exact hb.1
    · rw [ha]
      exact hb.2
    · rw [ha]

theorem relevance_score_bounded_witness :
    0 ≤ (PersonaSpecificAnalysis.mk [("research", 1), ("data", 1)] 100).relevance_score ∧
    (PersonaSpecificAnalysis.mk [("research", 1), ("data", 1)] 100).relevance_score ≤ 100 ∧
    (PersonaSpecificAnalysis.mk [("research", 1), ("data", 1)] 100).relevance_score
      = pyRound2 (pyMin 100
        ((totalKeywordHits "researcher" "research data" : ℚ)
          / (wordCount "research data" : ℚ) * 10000)) :=
  relevance_score_bounded "researcher" "research data"
    (PersonaSpecificAnalysis.mk [("research", 1), ("data", 1)] 100)
    (by
      have hw : wordCount "research data" = 2 := by decide
      have hk : keywordMatches "researcher" "research data"
          = [("research", 1), ("data", 1)] := by decide
      have ht : totalKeywordHits "researcher" "research data" = 2 := by
        rw [totalKeywordHits, hk]
        rfl
      rw [analyzeForPersona, if_neg (by rw [hw]; omega), hk, ht, hw]
      simp only [Option.some.injEq, PersonaSpecificAnalysis.mk.injEq]
      refine ⟨trivial, ?_⟩
      simp only [pyMin, pyRound2]
      norm_num)

/-- A 101-word text with exactly one persona-keyword hit. -/
def text101 : String := "research" ++ pyJoin "" (List.replicate 100 " a")

set_option maxRecDepth 40000 in
/-- Counterexample to C6 as stated: the produced relevance score is the
two-decimal rounding `99.01`, which differs from the exact value
`min(100, (1/101) × 10000) = 10000/101` of the claimed formula. -/
theorem relevance_score_rounding_counterexample :
    (analyzeForPersona "researcher" text101).map PersonaSpecificAnalysis.relevance_score
      = some (9901/100 : ℚ) ∧
    ¬ ((9901/100 : ℚ) = pyMin 100
      ((totalKeywordHits "researcher" text101 : ℚ) / (wordCount text101 : ℚ) * 10000)) := by
  have hw : wordCount text101 = 101 := by decide
  have hk : keywordMatches "researcher" text101 = [("research", 1)] := by decide
  have ht : totalKeywordHits "researcher" text101 = 1 := by
    rw [totalKeywordHits, hk]
    rfl
  constructor
  · rw [analyzeForPersona, if_neg (by rw [hw]; omega), ht, hw]
    simp only [Option.map_some', Option.some.injEq]
    simp only [pyMin, pyRound2]
    norm_num
  · rw [ht, hw]
    simp only [pyMin]
    norm_num

/-! ## Output formatter (`output_formatter.py`): text refinement -/

/-- The punctuation kept by `_refine_text`'s artifact-removal regex
(`[^\w\s\-.,;:!?()\'"@#$%&*+=<>[\]{}|\\/]` is removed). -/
def keptPunct : List Char :=
  ['-', '.', ',', ';', ':', '!', '?', '(', ')', '\'', '\"', '@', '#', '$', '%', '&',
   '*', '+', '=', '<', '>', '[', ']', '\x7b', '\x7d', '|', '\\', '/']

/-- A character surviving `_refine_text`'s artifact removal. -/
def keepChar (c : Char) : Bool := isWordChar c || isWs c || keptPunct.contains c

/-- `OutputFormatter._refine_text`: collapse whitespace, drop artifacts,
truncate to 500 characters (plus ellipsis), drop results shorter than 20. -/
def refineText (text : String) : String :=
  if text = "" then ""
  else
    let t1 : String := ⟨collapseWsAux false (pyStripList text.data)⟩
    let t2 : String := ⟨t1.data.filter keepChar⟩
    let t3 : String := if pyLen t2 > 500 then pyTake t2 500 ++ "..." else t2
    if pyLen (pyStrip t3) < 20 then "" else pyStrip t3

/-! ## Output formatter: persona detection from content -/

/-- The seven display-persona keyword lists of
`_detect_persona_from_content`, in the dict's insertion order. -/
def contentPersonaTables : List (String × List String) :=
  [ ("Technical Writer",
     ["acrobat", "pdf", "form", "fill", "sign", "export", "edit", "share", "convert",
      "create", "signature", "e-signature", "document", "tool", "feature", "option",
      "select", "choose", "interactive", "field", "text field", "checkbox",
      "radio button", "recipient", "email"]),
    ("HR Professional",
     ["onboarding", "compliance", "form", "fillable", "signature", "document",
      "employee", "hr", "human resources", "professional", "business", "workflow",
      "process", "approval"]),
    ("Travel Planner",
     ["travel", "tourism", "destination", "vacation", "holiday", "trip", "visit",
      "tourist", "activities", "attractions", "cuisine", "culture", "hotel",
      "restaurant", "beach", "coastal"]),
    ("Business Analyst",
     ["business", "corporate", "financial", "report", "analysis", "strategy",
      "management", "market", "sales", "profit", "revenue", "investment", "budget",
      "planning"]),
    ("Researcher",
     ["research", "study", "academic", "thesis", "paper", "methodology", "findings",
      "analysis", "literature", "review", "conclusion", "discussion", "data",
      "experiment", "survey"]),
    ("Legal Professional",
     ["legal", "law", "contract", "agreement", "terms", "conditions", "rights",
      "obligations", "liability", "compliance", "regulatory", "clause", "signature",
      "document"]),
    ("Medical Professional",
     ["medical", "health", "clinical", "patient", "diagnosis", "treatment",
      "symptoms", "medication", "therapy", "doctor", "hospital", "care", "wellness"]) ]

/-- Keyword-presence counts (`sum(1 for keyword in … if keyword in text_lower)`)
over the concatenated text blocks. -/
def contentPersonaCounts (content : Content) : List (String × Nat) :=
  contentPersonaTables.map fun pr =>
    (pr.1, (pr.2.filter fun kw =>
        strContains
          (pyLower (String.join (content.text_content.map fun b => b.text ++ " ")))
          kw).length)

/-- The auto-detection body of `_detect_persona_from_content`: the first
persona whose presence count equals the (positive) maximum wins, else
`"General User"`. -/
def detectPersonaAuto (content : Content) : String :=
  match contentPersonaCounts content with
  | [] => "General User"
  | c :: rest =>
    if specMaxScore (c :: rest) > 0 then
      match (c :: rest).find? (fun p => p.2 == specMaxScore (c :: rest)) with
      | some p => p.1
      | none => "General User"
    else "General User"

/-- `OutputFormatter._detect_persona_from_content`: an explicit non-`auto`
persona in the config wins, otherwise keyword detection. -/
def detectPersonaFromContent (content : Content) (persona_config : Option String) : String :=
  match persona_config with
  | some pt => if pt ≠ "auto" then pt else detectPersonaAuto content
  | none => detectPersonaAuto content

/-- `OutputFormatter._get_job_description_for_persona`'s lookup table. -/
def jobDescriptions : List (String × String) :=
  [ ("Technical Writer",
     "Create technical documentation and user guides for software applications and tools."),
    ("HR Professional",
     "Create and manage fillable forms for onboarding and compliance."),
    ("Travel Planner",
     "Plan trips and create travel itineraries for clients."),
    ("Business Analyst",
     "Analyze business documents and provide strategic insights."),
    ("Researcher",
     "Conduct comprehensive research and analysis of academic documents."),
    ("Legal Professional",
     "Review and analyze legal documents and contracts."),
    ("Medical Professional",
     "Analyze medical documents and patient information."),
    ("General User",
     "Process and analyze various types of documents for general use.") ]

/-- `OutputFormatter._get_job_description_for_persona`. -/
def getJobDescriptionForPersona (persona : String) : String :=
  match jobDescriptions.find? (fun pr => pr.1 == persona) with
  | some pr => pr.2
  | none => "Process and analyze documents for professional use."

/-! ## Output formatter: analysis-text enhancement -/

/-- The early-return keyword list of `_enhance_analysis_text`. -/
def analysisShortKeywords : List String :=
  ["create", "convert", "export", "edit", "fill", "sign", "share", "request",
   "generate", "activities", "tips", "cuisine", "culture", "analysis",
   "methodology", "results"]

/-- The meaningful-sentence keyword list of `_enhance_analysis_text`. -/
def analysisSentenceKeywords : List String :=
  ["create", "convert", "export", "edit", "fill", "sign", "share", "request",
   "generate", "activities", "tips", "cuisine", "culture", "analysis",
   "methodology", "results", "form", "pdf", "document", "tool", "feature",
   "option", "select", "choose"]

/-- The three boilerplate prefixes stripped by `_enhance_analysis_text`. -/
def genericAnalysisPrefixes : List String :=
  ["This document contains valuable information and insights.",
   "This document provides comprehensive coverage of the topic with detailed analysis and practical information for readers.",
   "It provides comprehensive coverage of the topic with detailed analysis and practical information for readers."]

/-- Sequentially strip each matching boilerplate prefix, re-stripping
whitespace after each removal. -/
def stripPrefixesAux (text : String) : List String → String
  | [] => text
  | p :: ps =>
    if pyStartsWith text p then stripPrefixesAux (pyStrip (pyDrop text (pyLen p))) ps
    else stripPrefixesAux text ps

/-- The stripped sentences longer than 20 characters containing a
meaningful keyword. -/
def meaningfulSentences (text : String) : List String :=
  (pySplitOn text ".").filterMap fun s =>
    if pyLen (pyStrip s) > 20 ∧
       containsAny (pyLower (pyStrip s)) analysisSentenceKeywords then
      some (pyStrip s)
    else none

/-- The canned-sentence chain of `_enhance_analysis_text`'s technical branch. -/
def analysisTechCanned (tl : String) : Option String :=
  if strContains tl "form" then
    some "Interactive forms contain fields that you can select and fill in. Use the Fill & Sign tool to complete PDF forms efficiently."
  else if strContains tl "export" then
    some "Export PDF content to various formats including text, images, and other document types."
  else if strContains tl "edit" then
    some "Edit text and images in PDF documents using Acrobat's editing tools."
  else if strContains tl "share" then
    some "Share PDF documents through email, links, or cloud storage for collaboration."
  else if strContains tl "signature" then
    some "Request electronic signatures from multiple recipients using Acrobat's e-signature features."
  else if strContains tl "create" || strContains tl "convert" then
    some "Create PDFs from various file formats and convert existing documents to PDF."
  else if strContains tl "ai" || strContains tl "generative" then
    some "Use generative AI features in Acrobat to quickly scan and analyze PDF content."
  else none

/-- The canned-sentence chain of `_enhance_analysis_text`'s travel branch. -/
def analysisTravelCanned (tl : String) : Option String :=
  if strContains tl "activities" then
    some "Discover various activities and attractions available for visitors to enjoy."
  else if strContains tl "tips" then
    some "Essential travel tips and planning advice for a successful trip."
  else if strContains tl "cuisine" then
    some "Explore local cuisine and dining experiences in the destination."
  else if strContains tl "culture" then
    some "Learn about local culture, traditions, and heritage of the region."
  else if strContains tl "city" then
    some "Comprehensive guide to major cities and urban attractions."
  else if strContains tl "coastal" then
    some "Coastal activities and beach-related experiences for visitors."
  else none

/-- The filename-bucket dispatch of `_enhance_analysis_text` (technical,
travel, business, academic — no legal or medical bucket here). -/
def analysisBucket (doc_lower text : String) : Option String :=
  if containsAny doc_lower ["acrobat", "pdf", "technical", "learn"] then
    analysisTechCanned (pyLower text)
  else if containsAny doc_lower ["travel", "tourism", "destination"] then
    analysisTravelCanned (pyLower text)
  else if containsAny doc_lower ["business", "corporate", "financial"] then
    some "Professional analysis and strategic insights for business decision-making."
  else if containsAny doc_lower ["research", "study", "academic"] then
    some "Research findings and methodology for academic analysis and study."
  else none

/-- The final sentence scan of `_enhance_analysis_text`: the first stripped
sentence of length strictly between 30 and 200, with a period appended if
missing. -/
def firstMediumSentence : List String → Option String
  | [] => none
  | s :: rest =>
    if pyLen (pyStrip s) > 30 ∧ pyLen (pyStrip s) < 200 then
      some (pyStrip s ++ (if pyEndsWith (pyStrip s) "." then "" else "."))
    else firstMediumSentence rest

/-- `OutputFormatter._enhance_analysis_text`. -/
def enhanceAnalysisText (document_name original_text : String) : String :=
  if pyLen original_text ≤ 200 ∧
     containsAny (pyLower original_text) analysisShortKeywords then
    original_text
  else
    match stripPrefixesAux (pyStrip original_text) genericAnalysisPrefixes with
    | text =>
      match meaningfulSentences text with
      | m :: ms =>
        match pyJoin ". " ((m :: ms).take 2) with
        | result => if pyEndsWith result "." then result else result ++ "."
      | [] =>
        match analysisBucket (pyLower document_name) text with
        | some r => r
        | none =>
          match firstMediumSentence (pySplitOn text ".") with
          | some r => r
          | none => pyTake text 200 ++ (if pyLen text > 200 then "..." else "")

/-! ## Output formatter: report data model and single-document assembly -/

/-- One entry of `extracted_sections`. -/
structure RankedSection where
  document : String
  section_title : String
  importance_rank : Nat
  page_number : Nat
deriving DecidableEq, Repr

/-- One entry of `subsection_analysis`. -/
structure SubsectionEntry where
  document : String
  refined_text : String
  page_number : Nat
deriving DecidableEq, Repr

/-- The `metadata` block of a report (`processing_timestamp` is a model
parameter since `datetime.now()` is ambient). -/
structure ReportMetadata where
  input_documents : List String
  persona : String
  job_to_be_done : String
  processing_timestamp : String
deriving DecidableEq, Repr

/-- The final report dict. -/
structure FormattedReport where
  metadata : ReportMetadata
  extracted_sections : List RankedSection
  subsection_analysis : List SubsectionEntry
deriving DecidableEq, Repr

/-- `text.split('.')[0][:80] + "..." if len(text.split('.')[0]) > 80 else
text.split('.')[0]`. -/
def firstSentenceTitle (text : String) : String :=
  if pyLen ((pySplitOn text ".").headD "") > 80 then
    pyTake ((pySplitOn text ".").headD "") 80 ++ "..."
  else (pySplitOn text ".").headD ""

/-- Generic embedding of Python's
`for i, x in enumerate(l):  if …: out.append({…, "importance_rank": i+1, …})`. -/
def rankedFrom {α : Type} (step : Nat → α → Option RankedSection) :
    Nat → List α → List RankedSection
  | _, [] => []
  | i, a :: t => (step i a).toList ++ rankedFrom step (i + 1) t

/-- The content-derived sections of `format_single_pdf_output` (taken when
the structure has no sections but content exists): ranks follow the
`enumerate` index over the first 5 text blocks, skipping short blocks. -/
def sectionsFromContentSingle (filename : String) (tc : List ContentBlock) :
    List RankedSection :=
  rankedFrom (fun i tb =>
    if tb.text ≠ "" ∧ pyLen tb.text > 30 then
      some { document := filename,
             section_title := pyStrip (firstSentenceTitle tb.text),
             importance_rank := i + 1,
             page_number := tb.page }
    else none) 0 (tc.take 5)

/-- The structure-derived sections of `format_single_pdf_output`: ranks
follow the `enumerate` index over the first 5 sections, skipping sections
whose title is empty (in the source a missing `title` key would default to
a non-empty `"Section i+1"`; the model's `Sec.title` is always present). -/
def sectionsFromStructureSingle (filename : String) (ss : List Sec) :
    List RankedSection :=
  rankedFrom (fun i sec =>
    if sec.title ≠ "" ∧ pyLen (pyStrip sec.title) > 0 then
      some { document := filename,
             section_title := pyTake (pyStrip sec.title) 100,
             importance_rank := i + 1,
             page_number := sec.page }
    else none) 0 (ss.take 5)

/-- The subsection analyses of `format_single_pdf_output`: refined text of
the first 5 blocks, kept when longer than 50 characters. -/
def subsectionsSingle (filename : String) (tc : List ContentBlock) :
    List SubsectionEntry :=
  (tc.take 5).filterMap fun tb =>
    if refineText tb.text ≠ "" ∧ pyLen (refineText tb.text) > 50 then
      some { document := filename, refined_text := refineText tb.text,
             page_number := tb.page }
    else none

/-- `OutputFormatter.format_single_pdf_output` (the `processing_time` and
`file_size` arguments are accepted and unused, as in the source). -/
def format_single_pdf_output (filename : String) (processing_time : ℚ)
    (file_size : Nat) (metadata : Metadata) (docStructure : DocStructure)
    (content : Content) (persona_config : Option String) (now : String) :
    FormattedReport :=
  { metadata :=
      { input_documents := [filename],
        persona :=
          pyTitle (charReplace (detectPersonaFromContent content persona_config) '_' ' '),
        job_to_be_done :=
          getJobDescriptionForPersona (detectPersonaFromContent content persona_config),
        processing_timestamp := now },
    extracted_sections :=
      if docStructure.sections = [] then
        if content.text_content ≠ [] then
          sectionsFromContentSingle filename content.text_content
        else
          [{ document := filename, section_title := "Document Content",
             importance_rank := 1, page_number := 1 }]
      else sectionsFromStructureSingle filename docStructure.sections,
    subsection_analysis :=
      if subsectionsSingle filename content.text_content = [] then
        if metadata.title ≠ "" ∨ metadata.subject ≠ "" then
          [{ document := filename,
             refined_text := "This document appears to be about "
               ++ (if metadata.title ≠ "" then metadata.title else metadata.subject)
               ++ ". Content analysis completed successfully with available metadata.",
             page_number := 1 }]
        else
          [{ document := filename,
             refined_text := "PDF content processed successfully. Document contains "
               ++ toString metadata.pages
               ++ " pages with structured content suitable for analysis.",
             page_number := 1 }]
      else subsectionsSingle filename content.text_content }

/-! ## Output formatter: collection assembly -/

/-- The per-document `result` dict of a processed collection entry: the
`structure`/`content`/`persona_analysis` keys may be absent.  The
`persona_analysis` field holds `persona_analysis.get("persona_type",
"general")` when the key is present. -/
structure ResultData where
  docStructure : Option DocStructure
  content : Option Content
  persona_analysis : Option String
deriving DecidableEq, Repr

/-- One entry of the `results` list passed to `format_collection_output`. -/
structure CollectionItem where
  status : String
  filename : String
  result : Option ResultData
deriving DecidableEq, Repr

/-- `all_sections.append({…, "importance_rank": len(all_sections) + 1, …})`. -/
def pushSection (acc : List RankedSection) (doc title : String) (page : Nat) :
    List RankedSection :=
  acc ++ [{ document := doc, section_title := title,
            importance_rank := acc.length + 1, page_number := page }]

/-- One step of the per-document section loop: keep a section when its
title is non-empty and fewer than 2 sections of this document were taken;
the appended rank is the current global length + 1. -/
def sectionStep (filename : String) (st : List RankedSection × Nat) (sec : Sec) :
    List RankedSection × Nat :=
  if sec.title ≠ "" ∧ st.2 < 2 then
    (pushSection st.1 filename (enhanceSectionTitle filename sec.title) sec.page,
     st.2 + 1)
  else st

/-- The per-document section collection of `format_collection_output`. -/
def collectSectionsFromDoc (filename : String) (acc : List RankedSection)
    (ss : List Sec) : List RankedSection :=
  (ss.foldl (sectionStep filename) (acc, 0)).1

/-- One step of the outer loop over results (section collection). -/
def collectItemStep (acc : List RankedSection) (item : CollectionItem) :
    List RankedSection :=
  match item.result with
  | some rd =>
    if item.status = "processed" then
      match rd.docStructure with
      | some st => collectSectionsFromDoc item.filename acc st.sections
      | none => acc
    else acc
  | none => acc

/-- The merged cross-document section list (before fallback/caps). -/
def collectAllSections (results : List CollectionItem) : List RankedSection :=
  results.foldl collectItemStep []

/-- The activity-keyword allowlist used to prioritize subsection content. -/
def collectionContentKeywords : List String :=
  ["beach", "coastal", "culinary", "cooking", "wine", "nightlife",
   "entertainment", "water sports", "activities", "packing", "tips",
   "restaurants", "hotels", "bars", "clubs", "diving", "sailing"]

/-- One step of the first (keyword-prioritized) subsection pass. -/
def subsStep1 (filename : String) (st : List SubsectionEntry × Nat × Bool)
    (tb : ContentBlock) : List SubsectionEntry × Nat × Bool :=
  if st.2.1 ≥ 2 then st
  else
    if refineText tb.text ≠ "" ∧ pyLen (refineText tb.text) > 50 ∧
       containsAny (pyLower (refineText tb.text)) collectionContentKeywords then
      (st.1 ++ [{ document := filename,
                  refined_text := enhanceAnalysisText filename (refineText tb.text),
                  page_number := tb.page }],
       st.2.1 + 1, true)
    else st

/-- One step of the second (general) subsection pass. -/
def subsStep2 (filename : String) (st : List SubsectionEntry × Nat)
    (tb : ContentBlock) : List SubsectionEntry × Nat :=
  if st.2 ≥ 2 then st
  else
    if refineText tb.text ≠ "" ∧ pyLen (refineText tb.text) > 50 then
      (st.1 ++ [{ document := filename,
                  refined_text := enhanceAnalysisText filename (refineText tb.text),
                  page_number := tb.page }],
       st.2 + 1)
    else st

/-- The per-document subsection collection: the keyword pass, then — when
it found nothing specific and fewer than 2 blocks were added — the
general pass over the same blocks. -/
def collectSubsFromDoc (filename : String) (tc : List ContentBlock) :
    List SubsectionEntry :=
  match tc.foldl (subsStep1 filename) ([], 0, false) with
  | (lst, added, specific) =>
    if ¬specific ∧ added < 2 then (tc.foldl (subsStep2 filename) (lst, added)).1
    else lst

/-- One step of the outer loop over results (subsection collection). -/
def subsItemStep (acc : List SubsectionEntry) (item : CollectionItem) :
    List SubsectionEntry :=
  match item.result with
  | some rd =>
    if item.status = "processed" then
      match rd.content with
      | some ct => acc ++ collectSubsFromDoc item.filename ct.text_content
      | none => acc
    else acc
  | none => acc

/-- The merged cross-document subsection list (before fallback/caps). -/
def collectAllSubs (results : List CollectionItem) : List SubsectionEntry :=
  results.foldl subsItemStep []

/-- One step of the fallback section creation (first 2 text blocks, text
longer than 30 characters). -/
def fallbackSectionStep (filename : String) (acc : List RankedSection)
    (tb : ContentBlock) : List RankedSection :=
  if tb.text ≠ "" ∧ pyLen tb.text > 30 then
    pushSection acc filename (pyStrip (firstSentenceTitle tb.text)) tb.page
  else acc

/-- One step of the outer fallback-section loop over results. -/
def fallbackItemStep (acc : List RankedSection) (item : CollectionItem) :
    List RankedSection :=
  match item.result with
  | some rd =>
    if item.status = "processed" then
      match rd.content with
      | some ct => (ct.text_content.take 2).foldl (fallbackSectionStep item.filename) acc
      | none => acc
    else acc
  | none => acc

/-- The fallback section list built when no sections were collected. -/
def fallbackSections (results : List CollectionItem) : List RankedSection :=
  results.foldl fallbackItemStep []

/-- The fallback subsection list built when no analyses were collected. -/
def fallbackSubs (results : List CollectionItem) : List SubsectionEntry :=
  results.foldl (fun acc item =>
    match item.result with
    | some rd =>
      if item.status = "processed" then
        match rd.content with
        | some ct =>
          acc ++ ((ct.text_content.take 2).filterMap fun tb =>
            if refineText tb.text ≠ "" ∧ pyLen (refineText tb.text) > 50 then
              some { document := item.filename, refined_text := refineText tb.text,
                     page_number := tb.page }
            else none)
        | none => acc
      else acc
    | none => acc) []

/-- The final title-enhancement pass (keeps the rank). -/
def enhanceSectionEntry (s : RankedSection) : RankedSection :=
  { document := s.document,
    section_title := enhanceSectionTitle s.document s.section_title,
    importance_rank := s.importance_rank,
    page_number := s.page_number }

/-- The final text-enhancement pass. -/
def enhanceSubsectionEntry (a : SubsectionEntry) : SubsectionEntry :=
  { document := a.document,
    refined_text := enhanceAnalysisText a.document a.refined_text,
    page_number := a.page_number }

/-- The personas collected from processed results carrying a
`persona_analysis`. -/
def detectedPersonas (results : List CollectionItem) : List String :=
  results.filterMap fun item =>
    match item.result with
    | some rd => if item.status = "processed" then rd.persona_analysis else none
    | none => none

/-- The filenames of processed results. -/
def processedFiles (results : List CollectionItem) : List String :=
  results.filterMap fun item =>
    match item.result with
    | some _ => if item.status = "processed" then some item.filename else none
    | none => none

/-- One step of the persona-count dict construction: Python dict update
`counts[p] = counts.get(p, 0) + 1` keeps the key's insertion position. -/
def bump : List (String × Nat) → String → List (String × Nat)
  | [], p => [(p, 1)]
  | (q, n) :: t, p => if q = p then (q, n + 1) :: t else (q, n) :: bump t p

/-- The persona-count dict of `_detect_collection_persona` (falsy and
`"auto"` entries are skipped). -/
def personaCounts (ds : List String) : List (String × Nat) :=
  ds.foldl (fun acc p => if p ≠ "" ∧ p ≠ "auto" then bump acc p else acc) []

/-- `OutputFormatter._detect_collection_persona`: `max(counts,
key=counts.get)` — first key on ties — or `"general"` when nothing was
counted. -/
def detectCollectionPersona (ds : List String) : String :=
  match ds with
  | [] => "general"
  | _ :: _ =>
    match personaCounts ds with
    | [] => "general"
    | c :: rest => (pyMaxAux c rest).1

/-- `OutputFormatter.format_collection_output` (the `cross_analysis`,
`summary` and `persona_config` arguments of the source are unused by its
body and omitted from the model). -/
def format_collection_output (task_id collection_path : String)
    (results : List CollectionItem) (now : String) : FormattedReport :=
  { metadata :=
      { input_documents := processedFiles results,
        persona :=
          pyTitle (charReplace (detectCollectionPersona (detectedPersonas results)) '_' ' '),
        job_to_be_done :=
          getJobDescriptionForPersona (detectCollectionPersona (detectedPersonas results)),
        processing_timestamp := now },
    extracted_sections :=
      (((if collectAllSections results = [] then fallbackSections results
         else collectAllSections results).take 5).map enhanceSectionEntry),
    subsection_analysis :=
      (((if collectAllSubs results = [] then fallbackSubs results
         else collectAllSubs results).take 5).map enhanceSubsectionEntry) }

/-! ## Claim C4: collection caps -/

theorem pushSection_length (acc : List RankedSection) (d t : String) (p : Nat) :
    (pushSection acc d t p).length = acc.length + 1 := by
  simp [pushSection]

theorem sections_fold_le (filename : String) (ss : List Sec) :
    ∀ (acc : List RankedSection) (n : Nat),
      ((ss.foldl (sectionStep filename) (acc, n)).1).length ≤ acc.length + (2 - n) := by
  induction ss with
  | nil => intro acc n; simp
  | cons sec t ih =>
    intro acc n
    rw [List.foldl_cons]
    by_cases h : sec.title ≠ "" ∧ n < 2
    · have hrw : sectionStep filename (acc, n) sec
          = (pushSection acc filename (enhanceSectionTitle filename sec.title) sec.page,
             n + 1) := by
        rw [sectionStep]
        exact if_pos h
      rw [hrw]
      have h2 := ih (pushSection acc filename (enhanceSectionTitle filename sec.title)
        sec.page) (n + 1)
      rw [pushSection_length] at h2
      have hn := h.2
      omega
    · have hrw : sectionStep filename (acc, n) sec = (acc, n) := by
        rw [sectionStep]
        exact if_neg h
      rw [hrw]
      exact ih acc n

theorem collectSectionsFromDoc_le (filename : String) (acc : List RankedSection)
    (ss : List Sec) :
    (collectSectionsFromDoc filename acc ss).length ≤ acc.length + 2 := by
  have h := sections_fold_le filename ss acc 0
  simpa [collectSectionsFromDoc] using h

theorem subsStep1_fold_Q (filename : String) (tc : List ContentBlock) :
    ∀ st : List SubsectionEntry × Nat × Bool,
      ((tc.foldl (subsStep1 filename) st).1).length
        + (2 - (tc.foldl (subsStep1 filename) st).2.1)
      ≤ st.1.length + (2 - st.2.1) := by
  induction tc with
  | nil => intro st; exact le_refl _
  | cons tb t ih =>
    intro st
    rw [List.foldl_cons]
    refine le_trans (ih (subsStep1 filename st tb)) ?_
    rw [subsStep1]
    by_cases h2 : st.2.1 ≥ 2
    · rw [if_pos h2]
    · rw [if_neg h2]
      by_cases hc : refineText tb.text ≠ "" ∧ pyLen (refineText tb.text) > 50 ∧
          containsAny (pyLower (refineText tb.text)) collectionContentKeywords
      · rw [if_pos hc]
        simp only [List.length_append, List.length_cons, List.length_nil]
        omega
      · rw [if_neg hc]

theorem subsStep2_fold_Q (filename : String) (tc : List ContentBlock) :
    ∀ st : List SubsectionEntry × Nat,
      ((tc.foldl (subsStep2 filename) st).1).length
        + (2 - (tc.foldl (subsStep2 filename) st).2)
      ≤ st.1.length + (2 - st.2) := by
  induction tc with
  | nil => intro st; exact le_refl _
  | cons tb t ih =>
    intro st
    rw [List.foldl_cons]
    refine le_trans (ih (subsStep2 filename st tb)) ?_
    rw [subsStep2]
    by_cases h2 : st.2 ≥ 2
    · rw [if_pos h2]
    · rw [if_neg h2]
      by_cases hc : refineText tb.text ≠ "" ∧ pyLen (refineText tb.text) > 50
      · rw [if_pos hc]
        simp only [List.length_append, List.length_cons, List.length_nil]
        omega
      · rw [if_neg hc]

theorem collectSubsFromDoc_le (filename : String) (tc : List ContentBlock) :
    (collectSubsFromDoc filename tc).length ≤ 2 := by
  rcases hfold : tc.foldl (subsStep1 filename) ([], 0, false) with ⟨lst, added, specific⟩
  have h1 := subsStep1_fold_Q filename tc ([], 0, false)
  rw [hfold] at h1
  simp only [List.length_nil] at h1
  rw [collectSubsFromDoc, hfold]
  show (if ¬specific = true ∧ added < 2 then
      (List.foldl (subsStep2 filename) (lst, added) tc).1 else lst).length ≤ 2
  by_cases hb : ¬ specific = true ∧ added < 2
  · rw [if_pos hb]
    have h2 : (List.foldl (subsStep2 filename) (lst, added) tc).1.length
        + (2 - (List.foldl (subsStep2 filename) (lst, added) tc).2)
        ≤ lst.length + (2 - added) := subsStep2_fold_Q filename tc (lst, added)
    omega
  · rw [if_neg hb]
    omega

/-- C4: for every collection of processed documents, the assembled report
has at most 5 extracted sections and at most 5 subsection analyses,
regardless of how many documents or how much content each contributed; and
the per-document contributions are capped at 2 sections and 2 analyses
before the global cap. -/
theorem collection_caps :
    (∀ (task_id collection_path : String) (results : List CollectionItem) (now : String),
       (format_collection_output task_id collection_path results now).extracted_sections.length ≤ 5 ∧
       (format_collection_output task_id collection_path results now).subsection_analysis.length ≤ 5) ∧
    (∀ (filename : String) (acc : List RankedSection) (ss : List Sec),
       (collectSectionsFromDoc filename acc ss).length ≤ acc.length + 2) ∧
    (∀ (filename : String) (tc : List ContentBlock),
       (collectSubsFromDoc filename tc).length ≤ 2) := by
  refine ⟨?_, collectSectionsFromDoc_le, collectSubsFromDoc_le⟩
  intro task_id collection_path results now
  constructor
  · simp [format_collection_output, List.length_map, List.length_take]
  · simp [format_collection_output, List.length_map, List.length_take]

/-! ## Claim C3: importance ranks -/

/-- The importance ranks of a section list, in emission order. -/
def ranksOf (l : List RankedSection) : List Nat := l.map fun s => s.importance_rank

theorem ranksOf_append (l1 l2 : List RankedSection) :
    ranksOf (l1 ++ l2) = ranksOf l1 ++ ranksOf l2 := List.map_append _ _ _

theorem ranksDense_push (acc : List RankedSection) (doc title : String) (page : Nat)
    (h : ranksOf acc = List.range' 1 acc.length) :
    ranksOf (pushSection acc doc title page)
      = List.range' 1 (pushSection acc doc title page).length := by
  rw [pushSection, ranksOf_append, h, List.length_append]
  show List.range' 1 acc.length ++ [acc.length + 1] = List.range' 1 (acc.length + 1)
  rw [List.range'_concat]
  congr 1
  simp [Nat.add_comm]

theorem foldl_dense_preserve {β : Type} (f : List RankedSection → β → List RankedSection)
    (hf : ∀ acc b, ranksOf acc = List.range' 1 acc.length →
      ranksOf (f acc b) = List.range' 1 (f acc b).length) :
    ∀ (l : List β) (acc : List RankedSection),
      ranksOf acc = List.range' 1 acc.length →
      ranksOf (l.foldl f acc) = List.range' 1 (l.foldl f acc).length := by
  intro l
  induction l with
  | nil => intro acc h; exact h
  | cons b t ih =>
    intro acc h
    rw [List.foldl_cons]
    exact ih _ (hf acc b h)

theorem sections_fold_dense (filename : String) (ss : List Sec) :
    ∀ (acc : List RankedSection) (n : Nat),
      ranksOf acc = List.range' 1 acc.length →
      ranksOf ((ss.foldl (sectionStep filename) (acc, n)).1)
        = List.range' 1 ((ss.foldl (sectionStep filename) (acc, n)).1).length := by
  induction ss with
  | nil => intro acc n h; exact h
  | cons sec t ih =>
    intro acc n h
    rw [List.foldl_cons]
    by_cases hc : sec.title ≠ "" ∧ n < 2
    · have hrw : sectionStep filename (acc, n) sec
          = (pushSection acc filename (enhanceSectionTitle filename sec.title) sec.page,
             n + 1) := by
        rw [sectionStep]
        exact if_pos hc
      rw [hrw]
      exact ih _ _ (ranksDense_push _ _ _ _ h)
    · have hrw : sectionStep filename (acc, n) sec = (acc, n) := by
        rw [sectionStep]
        exact if_neg hc
      rw [hrw]
      exact ih acc n h

theorem collectItemStep_dense (acc : List RankedSection) (item : CollectionItem)
    (h : ranksOf acc = List.range' 1 acc.length) :
    ranksOf (collectItemStep acc item)
      = List.range' 1 (collectItemStep acc item).length := by
  rw [collectItemStep]
  split
  · split
    · split
      · exact sections_fold_dense _ _ acc 0 h
      · exact h
    · exact h
  · exact h

theorem fallbackSectionStep_dense (filename : String) (acc : List RankedSection)
    (tb : ContentBlock) (h : ranksOf acc = List.range' 1 acc.length) :
    ranksOf (fallbackSectionStep filename acc tb)
      = List.range' 1 (fallbackSectionStep filename acc tb).length := by
  rw [fallbackSectionStep]
  split
  · exact ranksDense_push _ _ _ _ h
  · exact h

theorem fallbackItemStep_dense (acc : List RankedSection) (item : CollectionItem)
    (h : ranksOf acc = List.range' 1 acc.length) :
    ranksOf (fallbackItemStep acc item)
      = List.range' 1 (fallbackItemStep acc item).length := by
  rw [fallbackItemStep]
  split
  · split
    · split
      · exact foldl_dense_preserve _ (fallbackSectionStep_dense _) _ acc h
      · exact h
    · exact h
  · exact h

theorem ranks_range'_take (l : List RankedSection) :
    ∀ (s k : Nat), ranksOf l = List.range' s l.length →
      ranksOf (l.take k) = List.range' s (l.take k).length := by
  induction l with
  | nil => intro s k h; simp [ranksOf]
  | cons a t ih =>
    intro s k h
    rw [show ranksOf (a :: t) = a.importance_rank :: ranksOf t from rfl] at h
    simp only [List.length_cons] at h
    rw [List.range'_succ] at h
    injection h with h1 h2
    cases k with
    | zero => simp [ranksOf]
    | succ k =>
      rw [List.take_succ_cons]
      rw [show ranksOf (a :: t.take k) = a.importance_rank :: ranksOf (t.take k) from rfl]
      rw [ih (s + 1) k h2, h1]
      rw [show (a :: t.take k).length = (t.take k).length + 1 from rfl]
      rw [List.range'_succ]

theorem ranksOf_map_enhance (l : List RankedSection) :
    ranksOf (l.map enhanceSectionEntry) = ranksOf l := by
  rw [ranksOf, ranksOf, List.map_map]
  rfl

theorem collection_sections_dense (task_id collection_path : String)
    (results : List CollectionItem) (now : String) :
    ranksOf (format_collection_output task_id collection_path results now).extracted_sections
      = List.range' 1
          (format_collection_output task_id collection_path results now).extracted_sections.length := by
  show ranksOf (((if collectAllSections results = [] then fallbackSections results
      else collectAllSections results).take 5).map enhanceSectionEntry)
    = List.range' 1
        (((if collectAllSections results = [] then fallbackSections results
          else collectAllSections results).take 5).map enhanceSectionEntry).length
  have hb : ranksOf (if collectAllSections results = [] then fallbackSections results
      else collectAllSections results)
      = List.range' 1 (if collectAllSections results = [] then fallbackSections results
          else collectAllSections results).length := by
    split
    · exact foldl_dense_preserve _ fallbackItemStep_dense results [] rfl
    · exact foldl_dense_preserve _ collectItemStep_dense results [] rfl
  have ht := ranks_range'_take _ 1 5 hb
  rw [ranksOf_map_enhance, ht, List.length_map]

theorem rankedFrom_pairwise {α : Type} (step : Nat → α → Option RankedSection)
    (hstep : ∀ i a r, step i a = some r → r.importance_rank = i + 1) :
    ∀ (l : List α) (i : Nat),
      (∀ r ∈ rankedFrom step i l, i < r.importance_rank) ∧
      List.Pairwise (· < ·) (ranksOf (rankedFrom step i l)) := by
  intro l
  induction l with
  | nil =>
    intro i
    exact ⟨fun r hr => absurd hr (by simp [rankedFrom]), by simp [rankedFrom, ranksOf]⟩
  | cons a t ih =>
    intro i
    cases hs : step i a with
    | none =>
      rw [show rankedFrom step i (a :: t)
          = (step i a).toList ++ rankedFrom step (i + 1) t from rfl, hs]
      simp only [Option.toList_none, List.nil_append]
      constructor
      · intro r hr
        exact lt_trans (Nat.lt_succ_self i) ((ih (i + 1)).1 r hr)
      · exact (ih (i + 1)).2
    | some r0 =>
      rw [show rankedFrom step i (a :: t)
          = (step i a).toList ++ rankedFrom step (i + 1) t from rfl, hs]
      simp only [Option.toList_some, List.singleton_append]
      have hr0 : r0.importance_rank = i + 1 := hstep i a r0 hs
      constructor
      · intro r hr
        rcases List.mem_cons.mp hr with h1 | h2
        · rw [h1, hr0]
          omega
        · exact lt_trans (Nat.lt_succ_self i) ((ih (i + 1)).1 r h2)
      · rw [show ranksOf (r0 :: rankedFrom step (i + 1) t)
            = r0.importance_rank :: ranksOf (rankedFrom step (i + 1) t) from rfl]
        rw [List.pairwise_cons]
        constructor
        · intro y hy
          rw [hr0]
          rcases List.mem_map.mp hy with ⟨r, hrmem, hry⟩
          rw [← hry]
          exact (ih (i + 1)).1 r hrmem
        · exact (ih (i + 1)).2

theorem single_sections_pairwise (filename : String) (processing_time : ℚ)
    (file_size : Nat) (metadata : Metadata) (docStructure : DocStructure)
    (content : Content) (persona_config : Option String) (now : String) :
    List.Pairwise (· < ·)
      (ranksOf (format_single_pdf_output filename processing_time file_size metadata
        docStructure content persona_config now).extracted_sections) := by
  show List.Pairwise (· < ·) (ranksOf
    (if docStructure.sections = [] then
      if content.text_content ≠ [] then
        sectionsFromContentSingle filename content.text_content
      else
        [{ document := filename, section_title := "Document Content",
           importance_rank := 1, page_number := 1 }]
    else sectionsFromStructureSingle filename docStructure.sections))
  split
  · split
    · refine (rankedFrom_pairwise _ ?_ _ 0).2
      intro i tb r h
      by_cases hc : tb.text ≠ "" ∧ pyLen tb.text > 30
      · rw [if_pos hc] at h
        rw [← Option.some_inj.mp h]
      · rw [if_neg hc] at h
        exact Option.noConfusion h
    · simp [ranksOf]
  · refine (rankedFrom_pairwise _ ?_ _ 0).2
    intro i sec r h
    by_cases hc : sec.title ≠ "" ∧ pyLen (pyStrip sec.title) > 0
    · rw [if_pos hc] at h
      rw [← Option.some_inj.mp h]
    · rw [if_neg hc] at h
      exact Option.noConfusion h

/-- The gap-producing structure: the first section's title strips to
nothing, so it is skipped but its `enumerate` index is consumed. -/
def gapStructure : DocStructure :=
  { sections := [{ title := " ", page := 1, font_size := 12 },
                 { title := "A valid section title", page := 1, font_size := 12 }],
    total_pages := 1 }

/-- Counterexample to C3 as stated: a single-document report whose
extracted sections' importance ranks are `[2]`, not `1..len` — the
filtered `enumerate` consumed index 1 on a blank-titled section. -/
theorem importance_ranks_counterexample :
    ¬ (ranksOf (format_single_pdf_output "doc.pdf" 0 0 getDefaultMetadata gapStructure
          { text_content := [], total_paragraphs := 0 } none "t").extracted_sections
        = List.range' 1
            (format_single_pdf_output "doc.pdf" 0 0 getDefaultMetadata gapStructure
              { text_content := [], total_paragraphs := 0 } none "t").extracted_sections.length) := by
  decide

/-- C3 (amended): importance ranks are strictly increasing in emission
order in every report; in collection reports they are exactly the dense
sequence `1, 2, …, len(extracted_sections)`, while in single-document
reports the filtered `enumerate` can skip ranks, so they are strictly
increasing but may have gaps (see the counterexample). -/
theorem importance_ranks_amended :
    (∀ (filename : String) (processing_time : ℚ) (file_size : Nat)
       (metadata : Metadata) (docStructure : DocStructure) (content : Content)
       (persona_config : Option String) (now : String),
       List.Pairwise (· < ·)
         (ranksOf (format_single_pdf_output filename processing_time file_size metadata
           docStructure content persona_config now).extracted_sections)) ∧
    (∀ (task_id collection_path : String) (results : List CollectionItem) (now : String),
       ranksOf (format_collection_output task_id collection_path results now).extracted_sections
         = List.range' 1
             (format_collection_output task_id collection_path results now).extracted_sections.length) :=
  ⟨single_sections_pairwise, collection_sections_dense⟩

/-! ## Claim C7: collection persona -/

/-- First-seen deduplication with an explicit seen-set accumulator. -/
def firstSeenAux (seen : List String) : List String → List String
  | [] => []
  | p :: t => if p ∈ seen then firstSeenAux seen t else p :: firstSeenAux (p :: seen) t

/-- The distinct elements of `l` in first-seen order. -/
def firstSeen (l : List String) : List String := firstSeenAux [] l

/-- The validity test of `_detect_collection_persona`'s counting loop
(`if persona and persona != "auto"`). -/
def validPersona (p : String) : Bool := decide (p ≠ "" ∧ p ≠ "auto")

/-- The persona counts as the claim describes them: each distinct valid
persona in first-seen order, with its number of occurrences. -/
def countsSpec (l : List String) : List (String × Nat) :=
  (firstSeen l).map fun q => (q, l.count q)

/-- Collection-persona selection as amended claim C7 words it: the most
frequent valid detected persona, ties broken by first-seen order,
`"general"` exactly when no valid persona was detected. -/
def specCollectionPersona (ds : List String) : String :=
  if ds.filter validPersona = [] then "general"
  else
    match (countsSpec (ds.filter validPersona)).find?
        (fun p => p.2 == specMaxScore (countsSpec (ds.filter validPersona))) with
    | some p => p.1
    | none => "general"

theorem mem_firstSeenAux (l : List String) : ∀ (seen : List String) (x : String),
    x ∈ firstSeenAux seen l ↔ (x ∈ l ∧ x ∉ seen) := by
  induction l with
  | nil => intro seen x; simp [firstSeenAux]
  | cons p t ih =>
    intro seen x
    rw [firstSeenAux]
    by_cases hp : p ∈ seen
    · rw [if_pos hp, ih]
      constructor
      · intro ⟨h1, h2⟩
        exact ⟨List.mem_cons_of_mem _ h1, h2⟩
      · intro ⟨h1, h2⟩
        rcases List.mem_cons.mp h1 with h3 | h3
        · exact absurd (h3 ▸ hp) h2
        · exact ⟨h3, h2⟩
    · rw [if_neg hp]
      constructor
      · intro h
        rcases List.mem_cons.mp h with h3 | h3
        · exact ⟨h3 ▸ List.mem_cons_self p t, h3 ▸ hp⟩
        · obtain ⟨h4, h5⟩ := (ih (p :: seen) x).mp h3
          exact ⟨List.mem_cons_of_mem _ h4,
            fun hx => h5 (List.mem_cons_of_mem _ hx)⟩
      · intro ⟨h1, h2⟩
        rcases List.mem_cons.mp h1 with h3 | h3
        · exact h3 ▸ List.mem_cons_self p _
        · by_cases hxp : x = p
          · exact hxp ▸ List.mem_cons_self p _
          · exact List.mem_cons_of_mem _ ((ih (p :: seen) x).mpr
              ⟨h3, fun hx => (List.mem_cons.mp hx).elim hxp h2⟩)

theorem mem_firstSeen (l : List String) (x : String) :
    x ∈ firstSeen l ↔ x ∈ l := by
  rw [firstSeen, mem_firstSeenAux]
  simp

theorem firstSeenAux_nodup (l : List String) : ∀ seen : List String,
    (firstSeenAux seen l).Nodup := by
  induction l with
  | nil => intro seen; exact List.nodup_nil
  | cons p t ih =>
    intro seen
    rw [firstSeenAux]
    by_cases hp : p ∈ seen
    · rw [if_pos hp]
      exact ih seen
    · rw [if_neg hp]
      refine List.nodup_cons.mpr ⟨?_, ih (p :: seen)⟩
      intro hmem
      exact ((mem_firstSeenAux t (p :: seen) p).mp hmem).2 (List.mem_cons_self p seen)

theorem firstSeen_nodup (l : List String) : (firstSeen l).Nodup :=
  firstSeenAux_nodup l []

theorem firstSeenAux_append_singleton (l : List String) : ∀ (seen : List String) (p : String),
    firstSeenAux seen (l ++ [p])
      = firstSeenAux seen l ++ (if p ∈ seen ∨ p ∈ l then [] else [p]) := by
  induction l with
  | nil =>
    intro seen p
    simp only [List.nil_append, firstSeenAux]
    by_cases hp : p ∈ seen
    · rw [if_pos hp, if_pos (Or.inl hp)]
    · rw [if_neg hp, if_neg (by simp [hp])]
  | cons a t ih =>
    intro seen p
    rw [List.cons_append]
    by_cases ha : a ∈ seen
    · have hiff : (p ∈ seen ∨ p ∈ t) ↔ (p ∈ seen ∨ p ∈ a :: t) := by
        constructor
        · exact fun h => h.elim Or.inl (fun h2 => Or.inr (List.mem_cons_of_mem _ h2))
        · intro h
          rcases h with h | h
          · exact Or.inl h
          · rcases List.mem_cons.mp h with h1 | h1
            · exact Or.inl (h1 ▸ ha)
            · exact Or.inr h1
      rw [firstSeenAux, if_pos ha, ih seen p]
      rw [show firstSeenAux seen (a :: t) = firstSeenAux seen t from by
        rw [firstSeenAux, if_pos ha]]
      congr 1
      by_cases hp : p ∈ seen ∨ p ∈ t
      · rw [if_pos hp, if_pos (hiff.mp hp)]
      · rw [if_neg hp, if_neg (fun hc => hp (hiff.mpr hc))]
    · have hiff : (p ∈ a :: seen ∨ p ∈ t) ↔ (p ∈ seen ∨ p ∈ a :: t) := by
        constructor
        · intro h
          rcases h with h | h
          · rcases List.mem_cons.mp h with h1 | h1
            · exact Or.inr (h1 ▸ List.mem_cons_self a t)
            · exact Or.inl h1
          · exact Or.inr (List.mem_cons_of_mem _ h)
        · intro h
          rcases h with h | h
          · exact Or.inl (List.mem_cons_of_mem _ h)
          · rcases List.mem_cons.mp h with h1 | h1
            · exact Or.inl (h1 ▸ List.mem_cons_self a seen)
            · exact Or.inr h1
      rw [firstSeenAux, if_neg ha, ih (a :: seen) p]
      rw [show firstSeenAux seen (a :: t) = a :: firstSeenAux (a :: seen) t from by
        rw [firstSeenAux, if_neg ha]]
      rw [List.cons_append]
      congr 2
      by_cases hp : p ∈ a :: seen ∨ p ∈ t
      · rw [if_pos hp, if_pos (hiff.mp hp)]
      · rw [if_neg hp, if_neg (fun hc => hp (hiff.mpr hc))]

theorem firstSeen_append_singleton (l : List String) (p : String) :
    firstSeen (l ++ [p]) = firstSeen l ++ (if p ∈ l then [] else [p]) := by
  rw [firstSeen, firstSeenAux_append_singleton, firstSeen]
  congr 1
  by_cases hp : p ∈ l
  · rw [if_pos hp, if_pos (by simp [hp])]
  · rw [if_neg hp, if_neg (by simp [hp])]

theorem bump_map (f : String → Nat) (p : String) : ∀ (cands : List String), cands.Nodup →
    bump (cands.map fun q => (q, f q)) p
      = if p ∈ cands then cands.map (fun q => (q, if q = p then f q + 1 else f q))
        else (cands.map fun q => (q, f q)) ++ [(p, 1)] := by
  intro cands
  induction cands with
  | nil =>
    intro _
    simp [bump]
  | cons c t ih =>
    intro hnd
    rw [List.map_cons, bump]
    by_cases hc : c = p
    · rw [if_pos hc, if_pos (hc ▸ List.mem_cons_self c t)]
      rw [List.map_cons]
      subst hc
      rw [if_pos rfl]
      congr 1
      apply List.map_congr_left
      intro q hq
      have hq_ne : q ≠ c := fun h => (List.nodup_cons.mp hnd).1 (h ▸ hq)
      rw [if_neg hq_ne]
    · rw [if_neg hc, ih (List.nodup_cons.mp hnd).2]
      by_cases hp : p ∈ t
      · rw [if_pos hp, if_pos (List.mem_cons_of_mem _ hp), List.map_cons, if_neg hc]
      · rw [if_neg hp, if_neg (by
          intro hmem
          rcases List.mem_cons.mp hmem with h1 | h1
          · exact hc h1.symm
          · exact hp h1)]
        rfl

theorem count_append_singleton (l : List String) (p q : String) :
    (l ++ [p]).count q = l.count q + (if q = p then 1 else 0) := by
  rw [List.count_append]
  congr 1
  by_cases h : q = p
  · subst h
    simp [List.count_cons, List.count_nil]
  · simp [List.count_cons, List.count_nil, h, Ne.symm h]

theorem bump_countsSpec (l : List String) (p : String) :
    bump (countsSpec l) p = countsSpec (l ++ [p]) := by
  rw [countsSpec, countsSpec,
    bump_map (fun q => l.count q) p (firstSeen l) (firstSeen_nodup l)]
  rw [firstSeen_append_singleton]
  by_cases hp : p ∈ l
  · rw [if_pos ((mem_firstSeen l p).mpr hp), if_pos hp, List.append_nil]
    apply List.map_congr_left
    intro q hq
    rw [count_append_singleton]
    by_cases hqp : q = p
    · rw [if_pos hqp, if_pos hqp]
    · rw [if_neg hqp, if_neg hqp, Nat.add_zero]
  · rw [if_neg (fun hc => hp ((mem_firstSeen l p).mp hc)), if_neg hp]
    rw [List.map_append]
    congr 1
    · apply List.map_congr_left
      intro q hq
      rw [count_append_singleton]
      have hqp : q ≠ p := fun h => hp (h ▸ (mem_firstSeen l q).mp hq)
      rw [if_neg hqp, Nat.add_zero]
    · show [(p, 1)] = [(p, (l ++ [p]).count p)]
      rw [count_append_singleton, List.count_eq_zero_of_not_mem hp, if_pos rfl]

theorem foldl_bump_countsSpec (l : List String) : l.foldl bump [] = countsSpec l := by
  induction l using List.reverseRecOn with
  | nil => rfl
  | append_singleton t p ih =>
    rw [List.foldl_append, List.foldl_cons, List.foldl_nil, ih, bump_countsSpec]

theorem personaCounts_eq_countsSpec (ds : List String) :
    personaCounts ds = countsSpec (ds.filter validPersona) := by
  rw [show countsSpec (ds.filter validPersona)
      = (ds.filter validPersona).foldl bump [] from (foldl_bump_countsSpec _).symm]
  rw [personaCounts]
  suffices h : ∀ acc,
      ds.foldl (fun acc p => if p ≠ "" ∧ p ≠ "auto" then bump acc p else acc) acc
        = (ds.filter validPersona).foldl bump acc from h []
  induction ds with
  | nil => intro acc; rfl
  | cons p t ih =>
    intro acc
    rw [List.foldl_cons]
    by_cases hp : p ≠ "" ∧ p ≠ "auto"
    · rw [if_pos hp, List.filter_cons_of_pos (by simpa [validPersona] using hp),
        List.foldl_cons]
      exact ih _
    · rw [if_neg hp, List.filter_cons_of_neg (by simpa [validPersona] using hp)]
      exact ih acc

/-- C7 (amended): the collection persona is the most frequent valid
persona among those detected in successfully processed documents, with
ties broken by first-seen order (Python's `max` over the insertion-ordered
count dict); `"general"` is returned exactly when no valid persona was
detected — not on ties. -/
theorem collection_persona_matches_spec (ds : List String) :
    detectCollectionPersona ds = specCollectionPersona ds := by
  cases ds with
  | nil => rfl
  | cons d t =>
    rw [show detectCollectionPersona (d :: t)
        = (match personaCounts (d :: t) with
           | [] => "general"
           | c :: rest => (pyMaxAux c rest).1) from rfl]
    rw [personaCounts_eq_countsSpec, specCollectionPersona]
    by_cases hV : (d :: t).filter validPersona = []
    · rw [hV, if_pos rfl]
      rfl
    · rw [if_neg hV]
      obtain ⟨v, V, hv⟩ : ∃ v V, (d :: t).filter validPersona = v :: V := by
        cases h : (d :: t).filter validPersona with
        | nil => exact absurd h hV
        | cons v V => exact ⟨v, V, rfl⟩
      rw [hv]
      rw [show countsSpec (v :: V)
          = (v, (v :: V).count v)
            :: (firstSeenAux [v] V).map (fun q => (q, (v :: V).count q)) from rfl]
      rw [pyMaxAux_find _ _ _ (specMaxScore_cons _ _)]

/-- Counterexample to C7 as stated: with detected personas
`["researcher", "student"]` — a tie for most frequent — the code returns
the first-seen persona `"researcher"`, not `"general"`. -/
theorem collection_persona_tie_counterexample :
    detectCollectionPersona ["researcher", "student"] = "researcher" ∧
    detectCollectionPersona ["researcher", "student"] ≠ "general" := by
  constructor
  · rfl
  · decide
